import Mathlib

/-!
# Verification of the Planning Poker in-memory store

A shallow embedding of the server-side estimation authority
(`server/src/store.ts` of the poker-it repository) together with its
statistics engine and deck catalog (`packages/shared/src/decks.ts`), and
proofs about the behaviour of its operations.

Modelling conventions:
* JS `Map<string, T>` becomes an association list `List (Nat × T)` with
  JS-`Map` semantics (`set` replaces the entry in place when the key is
  present, otherwise appends; `delete` removes the entry; `values()` is the
  list of values in insertion order).
* `randomUUID()` is modelled by a fresh-id counter threaded through the
  state (`nextId`); ids are `Nat` instead of opaque UUID strings.
* `Date.now()` is modelled by a monotone clock field (`now`) that advances
  after each operation that reads it.
* JS numbers in the statistics engine become `ℚ`; `Number(value)` is
  modelled on the digit-string fragment that the deck values exercise.
* A thrown `Error(msg)` becomes `Except.error msg`; every operation returns
  the resulting state together with the `Except`, so the state returned on
  an error path reflects exactly the mutations performed before the throw
  (the module-level maps survive a JS exception).
-/

deriving instance DecidableEq for Except

namespace PokerIt

/-! ## JS `Map` model -/

/-- A JS `Map` keyed by ids, in insertion order. -/
abbrev JsMap (α : Type) : Type := List (Nat × α)

/-- `m.get(k)`: the value at the (unique) key `k`, if present. -/
def jsGet {α : Type} (m : JsMap α) (k : Nat) : Option α :=
  match m with
  | [] => none
  | p :: rest => if p.1 = k then some p.2 else jsGet rest k

/-- `m.set(k, v)`: replace in place when the key is present, append
otherwise. -/
def jsSet {α : Type} (m : JsMap α) (k : Nat) (v : α) : JsMap α :=
  match m with
  | [] => [(k, v)]
  | p :: rest => if p.1 = k then (k, v) :: rest else p :: jsSet rest k v

/-- `m.delete(k)` -/
def jsDelete {α : Type} (m : JsMap α) (k : Nat) : JsMap α :=
  List.filter (fun p => decide (p.1 ≠ k)) m

/-- `[...m.values()]` -/
def jsValues {α : Type} (m : JsMap α) : List α :=
  List.map Prod.snd m

/-! ## JS string helpers -/

/-- Model of JS `String.prototype.trim()` (whitespace stripped from both
ends). -/
def jsTrim (s : String) : String :=
  String.mk (((s.data.dropWhile Char.isWhitespace).reverse.dropWhile
    Char.isWhitespace).reverse)

/-- Model of JS `String.prototype.length` (UTF-16 units; all characters used
by the repository are in the BMP, so this is the character count). -/
def jsLength (s : String) : Nat :=
  s.data.length

/-! ## Data model (`packages/shared/src/types.ts`) -/

inductive RoomState where
  | OPEN
  | CLOSED
deriving DecidableEq, Repr

inductive DeckTypeT where
  | FIBONACCI
  | LINEAR
  | TSHIRT
deriving DecidableEq, Repr

inductive ParticipantRole where
  | FACILITATOR
  | PARTICIPANT
  | OBSERVER
deriving DecidableEq, Repr

inductive RoundState where
  | VOTING
  | REVEALED
  | FINALIZED
deriving DecidableEq, Repr

structure Room where
  id : Nat
  name : String
  deckType : String
  deckValues : List String
  state : RoomState
  facilitatorId : Nat
  createdAt : Nat
  closedAt : Option Nat
deriving DecidableEq, Repr

structure Participant where
  id : Nat
  roomId : Nat
  displayName : String
  role : ParticipantRole
  joinedAt : Nat
  leftAt : Option Nat
  isActive : Bool
deriving DecidableEq, Repr

structure Session where
  id : Nat
  roomId : Nat
  startedAt : Nat
  closedAt : Option Nat
  facilitatorId : Nat
  facilitatorName : String
  totalItems : Nat
  totalParticipants : Nat
deriving DecidableEq, Repr

structure Item where
  id : Nat
  roomId : Nat
  title : String
  description : Option String
  order : Nat
  finalEstimate : Option String
  finalEstimateRecordedAt : Option Nat
  createdAt : Nat
  currentRoundId : Option Nat
deriving DecidableEq, Repr

structure Round where
  id : Nat
  itemId : Nat
  roundNumber : Nat
  state : RoundState
  votesRevealedAt : Option Nat
  createdAt : Nat
  finalizedAt : Option Nat
deriving DecidableEq, Repr

structure Vote where
  id : Nat
  roundId : Nat
  participantId : Nat
  cardValue : String
  votedAt : Nat
  isRevealed : Bool
deriving DecidableEq, Repr

structure VoteStatistics where
  average : ℚ
  median : ℚ
  highest : String
  lowest : String
  suggestedEstimate : String
  voteDistribution : List (String × Nat)
deriving DecidableEq, Repr

/-! ## Deck catalog (`packages/shared/src/decks.ts`) -/

structure DeckDefinition where
  deckType : String
  deckValues : List String
deriving DecidableEq, Repr

def FIBONACCI : DeckDefinition :=
  { deckType := "FIBONACCI"
    deckValues := ["0", "1", "2", "3", "5", "8", "13", "21", "?", "☕"] }

def LINEAR : DeckDefinition :=
  { deckType := "LINEAR"
    deckValues := ["0", "1", "2", "3", "4", "5", "6", "7", "8", "9", "10"] }

def TSHIRT : DeckDefinition :=
  { deckType := "TSHIRT"
    deckValues := ["XS", "S", "M", "L", "XL"] }

/-- `DECKS[deckType]` -/
def DECKS (deckType : String) : Option DeckDefinition :=
  if deckType = "FIBONACCI" then some FIBONACCI
  else if deckType = "LINEAR" then some LINEAR
  else if deckType = "TSHIRT" then some TSHIRT
  else none

/-! ## Statistics engine (`store.ts`, `toNumeric` / `computeVoteStatistics`) -/

/-- `TSHIRT_TO_NUM`: T-shirt size to number for averaging. -/
def TSHIRT_TO_NUM (value : String) : Option ℚ :=
  if value = "XS" then some 1
  else if value = "S" then some 2
  else if value = "M" then some 3
  else if value = "L" then some 4
  else if value = "XL" then some 5
  else none

/-- `Number(value)` restricted to the digit-string fragment that deck card
values exercise: a non-empty all-digit string parses to its value, anything
else (`"?"`, `"☕"`, size labels, the empty string aside) is `NaN`. -/
def jsNumber (value : String) : Option ℚ :=
  if value.data ≠ [] ∧ value.data.all Char.isDigit then
    some ((value.data.foldl (fun a c => a * 10 + (c.toNat - 48)) 0 : Nat) : ℚ)
  else
    none

/-- `toNumeric(value, deckValues)` (the `deckValues` argument is unused in
the source as well). -/
def toNumeric (value : String) (deckValues : List String) : Option ℚ :=
  match jsNumber value with
  | some n => some n
  | none => TSHIRT_TO_NUM value

/-- `distribution[v] = (distribution[v] ?? 0) + 1` on a record modelled as
an association list in insertion order. -/
def bumpCount (d : List (String × Nat)) (k : String) : List (String × Nat) :=
  match d with
  | [] => [(k, 1)]
  | p :: rest => if p.1 = k then (p.1, p.2 + 1) :: rest else p :: bumpCount rest k

/-- `Math.round` on a rational: floor of `q + 1/2` (matches JS for all
finite inputs). -/
def jsRound (q : ℚ) : ℤ :=
  ⌊q + 1 / 2⌋

/-- `computeVoteStatistics(voteList, deckValues)`. -/
def computeVoteStatistics (voteList : List Vote) (deckValues : List String) :
    VoteStatistics :=
  let numericValues : List ℚ :=
    voteList.filterMap (fun v => toNumeric v.cardValue deckValues)
  let distribution : List (String × Nat) :=
    voteList.foldl (fun d v => bumpCount d v.cardValue) []
  let sorted := numericValues.insertionSort (· ≤ ·)
  let len := sorted.length
  let average : ℚ := if len > 0 then (sorted.foldl (· + ·) 0) / (len : ℚ) else 0
  let median : ℚ :=
    if len > 0 then
      (sorted.getD ((len - 1) / 2) 0 + sorted.getD (len / 2) 0) / 2
    else 0
  let highest : String :=
    voteList.foldl (fun best v =>
      match toNumeric v.cardValue deckValues, toNumeric best deckValues with
      | none, _ => best
      | some _, none => v.cardValue
      | some n, some b => if n > b then v.cardValue else best)
      ((voteList.head?.map Vote.cardValue).getD "")
  let lowest : String :=
    voteList.foldl (fun best v =>
      match toNumeric v.cardValue deckValues, toNumeric best deckValues with
      | none, _ => best
      | some _, none => v.cardValue
      | some n, some b => if n < b then v.cardValue else best)
      ((voteList.head?.map Vote.cardValue).getD "")
  let suggestedEstimate : String :=
    if len > 0 then
      let rounded : ℤ := jsRound average
      -- `numToDeck` filtered to the entries whose `n` is non-null.
      let numericDeck : List (String × ℚ) :=
        deckValues.filterMap (fun d => (toNumeric d deckValues).map (fun n => (d, n)))
      match numericDeck with
      | [] => toString rounded
      | x :: xs =>
        (xs.foldl (fun a b =>
          if |a.2 - (rounded : ℚ)| ≤ |b.2 - (rounded : ℚ)| then a else b) x).1
    else ""
  { average := average
    median := median
    highest := highest
    lowest := lowest
    suggestedEstimate := suggestedEstimate
    voteDistribution := distribution }

/-! ## Authority state (`store.ts` module-level maps plus id/clock sources) -/

structure State where
  rooms : JsMap Room
  participants : JsMap Participant
  sessions : JsMap Session
  items : JsMap Item
  rounds : JsMap Round
  votes : JsMap Vote
  /-- fresh-id source modelling `randomUUID()` -/
  nextId : Nat
  /-- clock modelling `Date.now()` -/
  now : Nat
deriving DecidableEq, Repr

/-- The store at module load: six empty maps. -/
def initialState : State :=
  { rooms := [], participants := [], sessions := [], items := [], rounds := []
    votes := [], nextId := 0, now := 0 }

def ROOM_NAME_MAX_LENGTH : Nat := 200
def DISPLAY_NAME_MAX_LENGTH : Nat := 100
def ITEM_TITLE_MAX_LENGTH : Nat := 200
def ITEM_DESCRIPTION_MAX_LENGTH : Nat := 2000

/-! ## Room creation -/

structure CreateRoomInput where
  name : String
  deckType : String
  baseUrl : Option String
deriving DecidableEq, Repr

structure CreateRoomResult where
  room : Room
  participant : Participant
  session : Session
  shareableLink : String
deriving DecidableEq, Repr

/-- `baseUrl.replace(/\/$/, "")`: strip one trailing slash. -/
def stripTrailingSlash (s : String) : String :=
  match s.data.reverse with
  | '/' :: rest => String.mk rest.reverse
  | _ => s

/-- `createRoom(input)`. -/
def createRoom (input : CreateRoomInput) (s : State) :
    State × Except String CreateRoomResult :=
  let trimmedName := jsTrim input.name
  if trimmedName = "" then
    (s, Except.error "Room name is required")
  else if jsLength trimmedName > ROOM_NAME_MAX_LENGTH then
    (s, Except.error "Room name must be at most 200 characters")
  else
    match DECKS input.deckType with
    | none => (s, Except.error ("Unknown deck type: " ++ input.deckType))
    | some deck =>
      let now := s.now
      let roomId := s.nextId
      let participantId := s.nextId + 1
      let room : Room :=
        { id := roomId, name := trimmedName, deckType := input.deckType
          deckValues := deck.deckValues, state := RoomState.OPEN
          facilitatorId := participantId, createdAt := now, closedAt := none }
      let participant : Participant :=
        { id := participantId, roomId := roomId, displayName := trimmedName
          role := ParticipantRole.FACILITATOR, joinedAt := now, leftAt := none
          isActive := true }
      let session : Session :=
        { id := roomId, roomId := roomId, startedAt := now, closedAt := none
          facilitatorId := participantId, facilitatorName := trimmedName
          totalItems := 0, totalParticipants := 1 }
      let path := "/room/" ++ toString roomId
      let shareableLink :=
        match input.baseUrl with
        | some baseUrl => stripTrailingSlash baseUrl ++ path
        | none => path
      ({ s with
          rooms := jsSet s.rooms roomId room
          participants := jsSet s.participants participantId participant
          sessions := jsSet s.sessions roomId session
          nextId := s.nextId + 2
          now := s.now + 1 },
       Except.ok { room := room, participant := participant, session := session
                   shareableLink := shareableLink })

/-! ## Join, leave, close -/

structure JoinRoomInput where
  roomId : Nat
  displayName : String
  role : Option ParticipantRole
deriving DecidableEq, Repr

structure JoinRoomResult where
  participant : Participant
  room : Room
deriving DecidableEq, Repr

/-- `joinRoom(input)`. -/
def joinRoom (input : JoinRoomInput) (s : State) :
    State × Except String JoinRoomResult :=
  let role := input.role.getD ParticipantRole.PARTICIPANT
  match jsGet s.rooms input.roomId with
  | none => (s, Except.error "Room not found")
  | some room =>
    if room.state = RoomState.CLOSED then
      (s, Except.error "Room is closed")
    else
      let trimmedName := jsTrim input.displayName
      if trimmedName = "" then
        (s, Except.error "Display name is required")
      else if jsLength trimmedName > DISPLAY_NAME_MAX_LENGTH then
        (s, Except.error "Display name must be at most 100 characters")
      else
        let now := s.now
        let participantId := s.nextId
        let participant : Participant :=
          { id := participantId, roomId := input.roomId
            displayName := trimmedName, role := role, joinedAt := now
            leftAt := none, isActive := true }
        let participants' := jsSet s.participants participantId participant
        let sessions' :=
          match jsGet s.sessions input.roomId with
          | some session =>
            jsSet s.sessions input.roomId
              { session with totalParticipants := session.totalParticipants + 1 }
          | none => s.sessions
        ({ s with
            participants := participants'
            sessions := sessions'
            nextId := s.nextId + 1
            now := s.now + 1 },
         Except.ok { participant := participant, room := room })

/-- `leaveRoom(roomId, participantId)`. -/
def leaveRoom (roomId participantId : Nat) (s : State) :
    State × Except String Unit :=
  match jsGet s.participants participantId with
  | none => (s, Except.error "Participant not found")
  | some participant =>
    if participant.roomId ≠ roomId then
      (s, Except.error "Participant not found")
    else if participant.isActive = false then
      (s, Except.ok ()) -- Idempotent
    else
      let now := s.now
      ({ s with
          participants := jsSet s.participants participantId
            { participant with isActive := false, leftAt := some now }
          now := s.now + 1 },
       Except.ok ())

/-- `closeRoom(roomId, participantId)`. -/
def closeRoom (roomId participantId : Nat) (s : State) :
    State × Except String Unit :=
  match jsGet s.rooms roomId with
  | none => (s, Except.error "Room not found")
  | some room =>
    if room.facilitatorId ≠ participantId then
      (s, Except.error "Only the facilitator can close the room")
    else if room.state = RoomState.CLOSED then
      (s, Except.ok ()) -- Idempotent
    else
      let now := s.now
      let sessions' :=
        match jsGet s.sessions roomId with
        | some session => jsSet s.sessions roomId { session with closedAt := some now }
        | none => s.sessions
      ({ s with
          rooms := jsSet s.rooms roomId
            { room with state := RoomState.CLOSED, closedAt := some now }
          sessions := sessions'
          now := s.now + 1 },
       Except.ok ())

/-- `getRoom(roomId)`. -/
def getRoom (roomId : Nat) (s : State) : Option Room :=
  jsGet s.rooms roomId

/-- `getActiveParticipants(roomId)`. -/
def getActiveParticipants (roomId : Nat) (s : State) : List Participant :=
  ((jsValues s.participants).filter
    (fun p => decide (p.roomId = roomId ∧ p.isActive = true))).insertionSort
    (fun a b => a.joinedAt ≤ b.joinedAt)

/-! ## Estimation process -/

structure AddItemInput where
  roomId : Nat
  title : String
  description : Option String
  participantId : Nat
deriving DecidableEq, Repr

/-- `addItem(input)`. -/
def addItem (input : AddItemInput) (s : State) : State × Except String Item :=
  match jsGet s.rooms input.roomId with
  | none => (s, Except.error "Room not found")
  | some room =>
    if room.state = RoomState.CLOSED then
      (s, Except.error "Room is closed")
    else if room.facilitatorId ≠ input.participantId then
      (s, Except.error "Only the facilitator can add items")
    else
      let trimmedTitle := jsTrim input.title
      if trimmedTitle = "" then
        (s, Except.error "Title is required")
      else if jsLength trimmedTitle > ITEM_TITLE_MAX_LENGTH then
        (s, Except.error "Title must be at most 200 characters")
      else
        let desc : Option String := input.description.map jsTrim
        if (match desc with
            | some d => decide (d ≠ "" ∧ jsLength d > ITEM_DESCRIPTION_MAX_LENGTH)
            | none => false) then
          (s, Except.error "Description must be at most 2000 characters")
        else
          let roomItems :=
            ((jsValues s.items).filter
              (fun i => decide (i.roomId = input.roomId))).insertionSort
              (fun a b => a.order ≤ b.order)
          let nextOrder :=
            if roomItems.length = 0 then 1
            else (roomItems.map Item.order).foldl Nat.max 0 + 1
          let now := s.now
          let itemId := s.nextId
          let roundId := s.nextId + 1
          let item : Item :=
            { id := itemId, roomId := input.roomId, title := trimmedTitle
              description := desc, order := nextOrder, finalEstimate := none
              finalEstimateRecordedAt := none, createdAt := now
              currentRoundId := some roundId }
          let round : Round :=
            { id := roundId, itemId := itemId, roundNumber := 1
              state := RoundState.VOTING, votesRevealedAt := none
              createdAt := now, finalizedAt := none }
          ({ s with
              items := jsSet s.items itemId item
              rounds := jsSet s.rounds roundId round
              nextId := s.nextId + 2
              now := s.now + 1 },
           Except.ok item)

structure UpdateItemInput where
  roomId : Nat
  itemId : Nat
  title : Option String
  description : Option String
  participantId : Nat
deriving DecidableEq, Repr

/-- `updateItem(input)`.

The source mutates `item.title` before validating the description, so a
description-length failure leaves the new title in the store; the embedding
reproduces that by threading the partially-updated state into the error
result. -/
def updateItem (input : UpdateItemInput) (s : State) :
    State × Except String Item :=
  match jsGet s.rooms input.roomId with
  | none => (s, Except.error "Room not found")
  | some room =>
    if room.facilitatorId ≠ input.participantId then
      (s, Except.error "Only the facilitator can edit items")
    else
      match jsGet s.items input.itemId with
      | none => (s, Except.error "Item not found")
      | some item =>
        if item.roomId ≠ input.roomId then
          (s, Except.error "Item not found")
        else
          let round : Option Round :=
            match item.currentRoundId with
            | some rid => jsGet s.rounds rid
            | none => none
          let hasVotes :=
            match round with
            | some r => (jsValues s.votes).any (fun v => decide (v.roundId = r.id))
            | none => false
          if hasVotes then
            (s, Except.error "Cannot edit item after voting has started")
          else
            -- title branch (mutates the stored item before the description
            -- branch runs)
            let titleStep : State × Item × Option String :=
              match input.title with
              | none => (s, item, none)
              | some title =>
                let t := jsTrim title
                if t = "" then (s, item, some "Title is required")
                else if jsLength t > ITEM_TITLE_MAX_LENGTH then
                  (s, item, some "Title must be at most 200 characters")
                else
                  let item' := { item with title := t }
                  ({ s with items := jsSet s.items input.itemId item' },
                   item', none)
            match titleStep with
            | (s1, _, some msg) => (s1, Except.error msg)
            | (s1, item1, none) =>
              match input.description with
              | none => (s1, Except.ok item1)
              | some description =>
                let d := jsTrim description
                if d ≠ "" ∧ jsLength d > ITEM_DESCRIPTION_MAX_LENGTH then
                  (s1, Except.error "Description must be at most 2000 characters")
                else
                  let item2 := { item1 with description := some d }
                  ({ s1 with items := jsSet s1.items input.itemId item2 },
                   Except.ok item2)

/-- `removeItem(roomId, itemId, participantId)`.

The `for…of` loop over the item's rounds deletes every vote of each round
(deleting from a JS `Map` while iterating it removes exactly the entries
whose round id matches) and then the round itself. -/
def removeItem (roomId itemId participantId : Nat) (s : State) :
    State × Except String Unit :=
  match jsGet s.rooms roomId with
  | none => (s, Except.error "Room not found")
  | some room =>
    if room.facilitatorId ≠ participantId then
      (s, Except.error "Only the facilitator can remove items")
    else
      match jsGet s.items itemId with
      | none => (s, Except.error "Item not found")
      | some item =>
        if item.roomId ≠ roomId then
          (s, Except.error "Item not found")
        else
          let itemRounds := (jsValues s.rounds).filter
            (fun r => decide (r.itemId = itemId))
          let vr :=
            itemRounds.foldl
              (fun (vr : JsMap Vote × JsMap Round) r =>
                (vr.1.filter (fun p => decide (p.2.roundId ≠ r.id)),
                 jsDelete vr.2 r.id))
              (s.votes, s.rounds)
          ({ s with
              votes := vr.1
              rounds := vr.2
              items := jsDelete s.items itemId },
           Except.ok ())

structure CastVoteInput where
  roomId : Nat
  itemId : Nat
  participantId : Nat
  cardValue : String
deriving DecidableEq, Repr

/-- `castVote(input)`. -/
def castVote (input : CastVoteInput) (s : State) : State × Except String Vote :=
  match jsGet s.rooms input.roomId with
  | none => (s, Except.error "Room not found")
  | some room =>
    if room.state = RoomState.CLOSED then
      (s, Except.error "Room is closed")
    else
      match jsGet s.participants input.participantId with
      | none => (s, Except.error "Participant not found")
      | some participant =>
        if participant.roomId ≠ input.roomId ∨ participant.isActive = false then
          (s, Except.error "Participant not found")
        else if participant.role = ParticipantRole.OBSERVER then
          (s, Except.error "Observers cannot vote")
        else
          match jsGet s.items input.itemId with
          | none => (s, Except.error "Item not found")
          | some item =>
            if item.roomId ≠ input.roomId then
              (s, Except.error "Item not found")
            else
              match item.currentRoundId with
              | none => (s, Except.error "No active round for this item")
              | some currentRoundId =>
                match jsGet s.rounds currentRoundId with
                | none => (s, Except.error "Round not found")
                | some round =>
                  if round.itemId ≠ input.itemId then
                    (s, Except.error "Round not found")
                  else if round.state ≠ RoundState.VOTING then
                    (s, Except.error "Voting is closed for this round")
                  else if ¬ room.deckValues.contains input.cardValue then
                    (s, Except.error ("Invalid card value: " ++ input.cardValue))
                  else
                    let existing := (jsValues s.votes).find?
                      (fun v => decide (v.roundId = round.id ∧
                        v.participantId = input.participantId))
                    let now := s.now
                    match existing with
                    | some ex =>
                      let ex' := { ex with cardValue := input.cardValue
                                           votedAt := now }
                      ({ s with
                          votes := jsSet s.votes ex.id ex'
                          now := s.now + 1 },
                       Except.ok ex')
                    | none =>
                      let vote : Vote :=
                        { id := s.nextId, roundId := round.id
                          participantId := input.participantId
                          cardValue := input.cardValue, votedAt := now
                          isRevealed := false }
                      ({ s with
                          votes := jsSet s.votes vote.id vote
                          nextId := s.nextId + 1
                          now := s.now + 1 },
                       Except.ok vote)

structure RevealedVote where
  vote : Vote
  participantName : String
deriving DecidableEq, Repr

structure RevealVotesResult where
  votes : List RevealedVote
  statistics : VoteStatistics
deriving DecidableEq, Repr

/-- `revealVotes(roomId, itemId, participantId)`. -/
def revealVotes (roomId itemId participantId : Nat) (s : State) :
    State × Except String RevealVotesResult :=
  match jsGet s.rooms roomId with
  | none => (s, Except.error "Room not found")
  | some room =>
    if room.facilitatorId ≠ participantId then
      (s, Except.error "Only the facilitator can reveal votes")
    else
      match jsGet s.items itemId with
      | none => (s, Except.error "Item not found")
      | some item =>
        if item.roomId ≠ roomId then
          (s, Except.error "Item not found")
        else
          match item.currentRoundId with
          | none => (s, Except.error "No active round")
          | some currentRoundId =>
            match jsGet s.rounds currentRoundId with
            | none => (s, Except.error "Round not found")
            | some round =>
              if round.itemId ≠ itemId then
                (s, Except.error "Round not found")
              else if round.state ≠ RoundState.VOTING then
                (s, Except.error "Votes already revealed")
              else
                let now := s.now
                let round' := { round with state := RoundState.REVEALED
                                           votesRevealedAt := some now }
                -- every vote object of the round is flipped in place, so the
                -- list used for statistics and the returned list carry
                -- `isRevealed = true`.
                let voteList := ((jsValues s.votes).filter
                  (fun v => decide (v.roundId = round.id))).map
                  (fun v => { v with isRevealed := true })
                let votes' := s.votes.map (fun p =>
                  if p.2.roundId = round.id then
                    (p.1, { p.2 with isRevealed := true })
                  else p)
                let statistics := computeVoteStatistics voteList room.deckValues
                let votesWithNames := voteList.map (fun v =>
                  { vote := v
                    participantName :=
                      ((jsGet s.participants v.participantId).map
                        Participant.displayName).getD "Unknown" })
                ({ s with
                    rounds := jsSet s.rounds round.id round'
                    votes := votes'
                    now := s.now + 1 },
                 Except.ok { votes := votesWithNames, statistics := statistics })

/-- `revote(roomId, itemId, participantId)`. -/
def revote (roomId itemId participantId : Nat) (s : State) :
    State × Except String Round :=
  match jsGet s.rooms roomId with
  | none => (s, Except.error "Room not found")
  | some room =>
    if room.facilitatorId ≠ participantId then
      (s, Except.error "Only the facilitator can re-vote")
    else
      match jsGet s.items itemId with
      | none => (s, Except.error "Item not found")
      | some item =>
        if item.roomId ≠ roomId then
          (s, Except.error "Item not found")
        else
          match item.currentRoundId with
          | none => (s, Except.error "No active round")
          | some currentRoundId =>
            match jsGet s.rounds currentRoundId with
            | none => (s, Except.error "Round not found")
            | some oldRound =>
              if oldRound.itemId ≠ itemId then
                (s, Except.error "Round not found")
              else if oldRound.state ≠ RoundState.REVEALED then
                (s, Except.error "Can only re-vote after reveal")
              else
                let now := s.now
                let roundId := s.nextId
                let roundNumber := oldRound.roundNumber + 1
                let newRound : Round :=
                  { id := roundId, itemId := itemId, roundNumber := roundNumber
                    state := RoundState.VOTING, votesRevealedAt := none
                    createdAt := now, finalizedAt := none }
                ({ s with
                    rounds := jsSet s.rounds roundId newRound
                    items := jsSet s.items itemId
                      { item with currentRoundId := some roundId }
                    nextId := s.nextId + 1
                    now := s.now + 1 },
                 Except.ok newRound)

/-- `recordFinalEstimate(roomId, itemId, participantId, cardValue)`. -/
def recordFinalEstimate (roomId itemId participantId : Nat)
    (cardValue : String) (s : State) : State × Except String Item :=
  match jsGet s.rooms roomId with
  | none => (s, Except.error "Room not found")
  | some room =>
    if room.facilitatorId ≠ participantId then
      (s, Except.error "Only the facilitator can record final estimate")
    else
      match jsGet s.items itemId with
      | none => (s, Except.error "Item not found")
      | some item =>
        if item.roomId ≠ roomId then
          (s, Except.error "Item not found")
        else if ¬ room.deckValues.contains cardValue then
          (s, Except.error ("Invalid card value: " ++ cardValue))
        else
          let round : Option Round :=
            match item.currentRoundId with
            | some rid => jsGet s.rounds rid
            | none => none
          match round with
          | none => (s, Except.error "Round not found")
          | some r =>
            if r.itemId ≠ itemId then
              (s, Except.error "Round not found")
            else if r.state ≠ RoundState.REVEALED then
              (s, Except.error "Must reveal votes before recording final estimate")
            else
              let now := s.now
              let item' := { item with finalEstimate := some cardValue
                                       finalEstimateRecordedAt := some now
                                       currentRoundId := none }
              let r' := { r with state := RoundState.FINALIZED
                                 finalizedAt := some now }
              let items' := jsSet s.items itemId item'
              let sessions' :=
                match jsGet s.sessions roomId with
                | some session =>
                  jsSet s.sessions roomId
                    { session with totalItems :=
                        ((jsValues items').filter (fun i =>
                          decide (i.roomId = roomId ∧ i.finalEstimate ≠ none))).length }
                | none => s.sessions
              ({ s with
                  items := items'
                  rounds := jsSet s.rounds r.id r'
                  sessions := sessions'
                  now := s.now + 1 },
               Except.ok item')

/-! ## Queries -/

/-- `getItemsByRoom(roomId)`. -/
def getItemsByRoom (roomId : Nat) (s : State) : List Item :=
  ((jsValues s.items).filter (fun i => decide (i.roomId = roomId))).insertionSort
    (fun a b => a.order ≤ b.order)

/-- `getRoundById(roundId)`. -/
def getRoundById (roundId : Nat) (s : State) : Option Round :=
  jsGet s.rounds roundId

/-- `getVotesByRound(roundId)`. -/
def getVotesByRound (roundId : Nat) (s : State) : List Vote :=
  (jsValues s.votes).filter (fun v => decide (v.roundId = roundId))

/-- `getVoteCountForRound(roundId)`. -/
def getVoteCountForRound (roundId : Nat) (s : State) : Nat :=
  (getVotesByRound roundId s).length

/-- `getVotingParticipantCount(roomId)`. -/
def getVotingParticipantCount (roomId : Nat) (s : State) : Nat :=
  ((getActiveParticipants roomId s).filter (fun p =>
    decide (p.role = ParticipantRole.PARTICIPANT ∨
      p.role = ParticipantRole.FACILITATOR))).length

/-! ## HTTP boundary (`server/src/index.ts`, `POST /api/rooms/:id/join`) -/

/-- The join route: coerces the request's `role` field to `OBSERVER` exactly
when it is the string `"OBSERVER"`, and to `PARTICIPANT` otherwise, before
calling `joinRoom`. -/
def joinRoomRoute (roomId : Nat) (displayName : String) (role : Option String)
    (s : State) : State × Except String JoinRoomResult :=
  if displayName = "" then
    (s, Except.error "Display name is required")
  else
    let r := if role = some "OBSERVER" then ParticipantRole.OBSERVER
             else ParticipantRole.PARTICIPANT
    joinRoom { roomId := roomId, displayName := displayName, role := some r } s

/-! ## Operation sequences -/

/-- One Authority mutation, for reasoning about arbitrary operation
sequences. -/
inductive Op where
  | createRoom (input : CreateRoomInput)
  | joinRoom (input : JoinRoomInput)
  | leaveRoom (roomId participantId : Nat)
  | closeRoom (roomId participantId : Nat)
  | addItem (input : AddItemInput)
  | updateItem (input : UpdateItemInput)
  | removeItem (roomId itemId participantId : Nat)
  | castVote (input : CastVoteInput)
  | revealVotes (roomId itemId participantId : Nat)
  | revote (roomId itemId participantId : Nat)
  | recordFinalEstimate (roomId itemId participantId : Nat) (cardValue : String)
deriving DecidableEq, Repr

/-- Apply one operation, keeping the resulting state whether or not the
operation succeeded. -/
def applyOp (op : Op) (s : State) : State :=
  match op with
  | Op.createRoom input => (createRoom input s).1
  | Op.joinRoom input => (joinRoom input s).1
  | Op.leaveRoom roomId participantId => (leaveRoom roomId participantId s).1
  | Op.closeRoom roomId participantId => (closeRoom roomId participantId s).1
  | Op.addItem input => (addItem input s).1
  | Op.updateItem input => (updateItem input s).1
  | Op.removeItem roomId itemId participantId =>
    (removeItem roomId itemId participantId s).1
  | Op.castVote input => (castVote input s).1
  | Op.revealVotes roomId itemId participantId =>
    (revealVotes roomId itemId participantId s).1
  | Op.revote roomId itemId participantId =>
    (revote roomId itemId participantId s).1
  | Op.recordFinalEstimate roomId itemId participantId cardValue =>
    (recordFinalEstimate roomId itemId participantId cardValue s).1

/-- Run a sequence of operations from a starting state. -/
def runOps (ops : List Op) (s : State) : State :=
  ops.foldl (fun s op => applyOp op s) s

/-! ## Concrete traces used by counterexamples and witnesses -/

/-- Room `0` with facilitator participant `1`, freshly created. -/
def traceRoom : State :=
  (createRoom { name := "R", deckType := "FIBONACCI", baseUrl := none }
    initialState).1

def inputA : AddItemInput :=
  { roomId := 0, title := "A", description := none, participantId := 1 }

def inputB : AddItemInput :=
  { roomId := 0, title := "B", description := none, participantId := 1 }

def inputC : AddItemInput :=
  { roomId := 0, title := "C", description := none, participantId := 1 }

/-- After `addItem` of "A": item `2` (order 1) with round `3` (VOTING). -/
def traceItemA : State := (addItem inputA traceRoom).1

/-- After `addItem` of "B": item `4` (order 2) with round `5` (VOTING). -/
def traceItemB : State := (addItem inputB traceItemA).1

/-- Remove item `4`, the item holding the highest order. -/
def traceRemoveB : State := (removeItem 0 4 1 traceItemB).1

/-- Reveal the (empty) votes of item `2`'s round `3`. -/
def traceRevealed : State := (revealVotes 0 2 1 traceItemA).1

/-- Finalize item `2` at "5": round `3` FINALIZED, `currentRoundId` cleared. -/
def traceFinalized : State := (recordFinalEstimate 0 2 1 "5" traceRevealed).1

/-- A single non-numeric vote. -/
def qmarkVote : Vote :=
  { id := 0, roundId := 0, participantId := 0, cardValue := "?", votedAt := 0
    isRevealed := false }

/-- Participant `4` ("P") joins room `0`. -/
def traceJoin : State :=
  (joinRoom { roomId := 0, displayName := "P", role := none } traceItemA).1

def voteInput3 : CastVoteInput :=
  { roomId := 0, itemId := 2, participantId := 4, cardValue := "3" }

def voteInput5 : CastVoteInput :=
  { roomId := 0, itemId := 2, participantId := 4, cardValue := "5" }

/-- Participant `4` casts "3" on item `2`'s round `3` (vote id `5`). -/
def traceVoted : State := (castVote voteInput3 traceJoin).1

/-- The facilitator reveals round `3` (one vote). -/
def traceVotedRevealed : State := (revealVotes 0 2 1 traceVoted).1

/-- The facilitator finalizes item `2` at "5"; round `3` is FINALIZED and
holds vote `5`; the item's `currentRoundId` is cleared. -/
def traceVotedFinalized : State :=
  (recordFinalEstimate 0 2 1 "5" traceVotedRevealed).1

/-- The item created by `addItem` of "B" on `traceItemA`. -/
def itemBValue : Item :=
  { id := 4, roomId := 0, title := "B", description := none, order := 2
    finalEstimate := none, finalEstimateRecordedAt := none, createdAt := 2
    currentRoundId := some 5 }

/-- A join request claiming the FACILITATOR role. -/
def joinMalloryInput : JoinRoomInput :=
  { roomId := 0, displayName := "Mallory"
    role := some ParticipantRole.FACILITATOR }

/-- A 2001-character description (one over the limit). -/
def longDescription : String := String.mk (List.replicate 2001 'a')

/-- An update with a valid title and an over-length description. -/
def badUpdateInput : UpdateItemInput :=
  { roomId := 0, itemId := 2, title := some "New"
    description := some longDescription, participantId := 1 }

/-! ## Specification-side definitions -/

/-- The suggested-estimate rule stated from the spec's words: round the
average of the numeric-eligible votes to the nearest integer, then pick the
first deck value whose numeric rank is closest to that integer (a value
whose distance is at most every other value's distance); with no
numeric-eligible deck values the rounded integer is rendered as a string;
with no numeric-eligible votes the result is the empty string. -/
def suggestedEstimateSpec (voteList : List Vote) (deckValues : List String) :
    String :=
  let numericVotes : List ℚ :=
    voteList.filterMap (fun v => toNumeric v.cardValue deckValues)
  if numericVotes.length > 0 then
    let rounded : ℤ := jsRound (numericVotes.sum / (numericVotes.length : ℚ))
    let numericDeck : List (String × ℚ) :=
      deckValues.filterMap (fun d => (toNumeric d deckValues).map (fun n => (d, n)))
    match numericDeck.find? (fun x => numericDeck.all
        (fun y => decide (|x.2 - (rounded : ℚ)| ≤ |y.2 - (rounded : ℚ)|))) with
    | some x => x.1
    | none => toString rounded
  else ""

/-- Well-formedness of the vote store: every entry's value carries its key
as its `id`, keys are unique, keys are below the fresh-id counter, and at
most one vote exists per `(roundId, participantId)` pair. -/
def VotesWF (s : State) : Prop :=
  (∀ p ∈ s.votes, (p : Nat × Vote).2.id = p.1) ∧
  (s.votes.map Prod.fst).Nodup ∧
  (∀ p ∈ s.votes, (p : Nat × Vote).1 < s.nextId) ∧
  (∀ p ∈ s.votes, ∀ q ∈ s.votes,
    (p : Nat × Vote).2.roundId = (q : Nat × Vote).2.roundId →
    (p : Nat × Vote).2.participantId = (q : Nat × Vote).2.participantId →
    p = q)

instance (s : State) : Decidable (VotesWF s) := by
  unfold VotesWF
  infer_instance

/-- The votes of one `(roundId, participantId)` pair. -/
def pairVotes (s : State) (roundId participantId : Nat) : List Vote :=
  (jsValues s.votes).filter
    (fun v => decide (v.roundId = roundId ∧ v.participantId = participantId))

def roomValue : Room :=
  { id := 0, name := "R", deckType := "FIBONACCI"
    deckValues := FIBONACCI.deckValues, state := RoomState.OPEN
    facilitatorId := 1, createdAt := 0, closedAt := none }

def itemAValue : Item :=
  { id := 2, roomId := 0, title := "A", description := none, order := 1
    finalEstimate := none, finalEstimateRecordedAt := none, createdAt := 1
    currentRoundId := some 3 }

def finalizedItemValue : Item :=
  { id := 2, roomId := 0, title := "A", description := none, order := 1
    finalEstimate := some "5", finalEstimateRecordedAt := some 5
    createdAt := 1, currentRoundId := none }

def updateFinalizedInput : UpdateItemInput :=
  { roomId := 0, itemId := 2, title := some "NewTitle"
    description := some "NewDesc", participantId := 1 }

def updatedFinalItem : Item :=
  { finalizedItemValue with title := jsTrim "NewTitle"
                            description := some (jsTrim "NewDesc") }

def round3Voting : Round :=
  { id := 3, itemId := 2, roundNumber := 1, state := RoundState.VOTING
    votesRevealedAt := none, createdAt := 1, finalizedAt := none }

def round3Revealed : Round :=
  { id := 3, itemId := 2, roundNumber := 1, state := RoundState.REVEALED
    votesRevealedAt := some 4, createdAt := 1, finalizedAt := none }

def routeParticipantValue : Participant :=
  { id := 2, roomId := 0, displayName := "Q"
    role := ParticipantRole.PARTICIPANT, joinedAt := 1, leftAt := none
    isActive := true }

def routeResValue : JoinRoomResult :=
  { participant := routeParticipantValue, room := roomValue }

def oneVote : Vote := { qmarkVote with id := 1, cardValue := "1" }

def threeVote : Vote := { qmarkVote with id := 2, cardValue := "3" }

/-- Votes "1", "?", "3": one non-numeric value among numeric ones. -/
def c9Votes : List Vote := [oneVote, qmarkVote, threeVote]

def joinPValue : Participant :=
  { id := 4, roomId := 0, displayName := "P"
    role := ParticipantRole.PARTICIPANT, joinedAt := 2, leftAt := none
    isActive := true }

/-! ## Map lemmas -/

theorem jsGet_mem {α : Type} {m : JsMap α} {k : Nat} {v : α}
    (h : jsGet m k = some v) : (k, v) ∈ m := by
  induction m with
  | nil => simp [jsGet] at h
  | cons p rest ih =>
    by_cases hp : p.1 = k
    · simp only [jsGet, if_pos hp, Option.some.injEq] at h
      have hpe : p = (k, v) := by
        calc p = (p.1, p.2) := rfl
          _ = (k, v) := by rw [hp, h]
      exact List.mem_cons.mpr (Or.inl hpe.symm)
    · simp only [jsGet, if_neg hp] at h
      exact List.mem_cons_of_mem p (ih h)

theorem jsGet_jsSet {α : Type} (m : JsMap α) (k k' : Nat) (v : α) :
    jsGet (jsSet m k v) k' = if k' = k then some v else jsGet m k' := by
  induction m with
  | nil =>
    by_cases h : k' = k
    · simp [jsGet, jsSet, h]
    · simp [jsGet, jsSet, h, Ne.symm h]
  | cons p rest ih =>
    by_cases hp : p.1 = k
    · by_cases h : k' = k
      · simp [jsGet, jsSet, hp, h]
      · simp [jsGet, jsSet, hp, h, Ne.symm h, hp.symm ▸ h]
    · by_cases hpk : p.1 = k'
      · have h : ¬ k' = k := fun he => hp (he ▸ hpk)
        simp [jsGet, jsSet, hp, hpk, h]
      · simp [jsGet, jsSet, hp, hpk, ih]

theorem jsGet_jsSet_self {α : Type} (m : JsMap α) (k : Nat) (v : α) :
    jsGet (jsSet m k v) k = some v := by
  simp [jsGet_jsSet]

theorem jsGet_jsSet_ne {α : Type} (m : JsMap α) (k k' : Nat) (v : α)
    (h : k' ≠ k) : jsGet (jsSet m k v) k' = jsGet m k' := by
  simp [jsGet_jsSet, h]

theorem jsGet_jsDelete_self {α : Type} (m : JsMap α) (k : Nat) :
    jsGet (jsDelete m k) k = none := by
  induction m with
  | nil => simp [jsGet, jsDelete]
  | cons p rest ih =>
    by_cases hp : p.1 = k
    · simpa [jsDelete, hp] using ih
    · simpa [jsDelete, jsGet, hp] using ih

theorem jsSet_fresh_append {α : Type} {m : JsMap α} {k : Nat}
    (h : ∀ p ∈ m, (p : Nat × α).1 ≠ k) (v : α) :
    jsSet m k v = m ++ [(k, v)] := by
  induction m with
  | nil => simp [jsSet]
  | cons p rest ih =>
    have hp : p.1 ≠ k := h p (by simp)
    simp only [jsSet, if_neg hp, List.cons_append, List.cons.injEq, true_and]
    exact ih (fun q hq => h q (by simp [hq]))

theorem jsSet_mem_split {α : Type} {m : JsMap α} {k : Nat} {w : α}
    (hn : (m.map Prod.fst).Nodup) (hmem : (k, w) ∈ m) (v : α) :
    ∃ m₁ m₂, m = m₁ ++ (k, w) :: m₂ ∧ jsSet m k v = m₁ ++ (k, v) :: m₂ ∧
      (∀ p ∈ m₁, (p : Nat × α).1 ≠ k) ∧ (∀ p ∈ m₂, (p : Nat × α).1 ≠ k) := by
  induction m with
  | nil => simp at hmem
  | cons p rest ih =>
    simp only [List.map_cons, List.nodup_cons] at hn
    by_cases hp : p.1 = k
    · have hpw : p = (k, w) := by
        rcases List.mem_cons.mp hmem with he | he
        · exact he.symm
        · exact absurd (hp ▸ List.mem_map_of_mem Prod.fst he) hn.1
      refine ⟨[], rest, by simp [hpw], ?_, by simp, ?_⟩
      · simp [jsSet, hp]
      · intro q hq hqk
        apply hn.1
        rw [hp, ← hqk]
        exact List.mem_map_of_mem Prod.fst hq
    · have hmem' : (k, w) ∈ rest := by
        rcases List.mem_cons.mp hmem with he | he
        · exact absurd (congrArg Prod.fst he.symm) hp
        · exact he
      obtain ⟨m₁, m₂, he, hs, h₁, h₂⟩ := ih hn.2 hmem'
      refine ⟨p :: m₁, m₂, by simp [he], by simp [jsSet, hp, hs], ?_, h₂⟩
      intro q hq
      rcases List.mem_cons.mp hq with hq | hq
      · exact hq ▸ hp
      · exact h₁ q hq

theorem jsValues_append {α : Type} (m₁ m₂ : JsMap α) :
    jsValues (m₁ ++ m₂) = jsValues m₁ ++ jsValues m₂ := by
  simp [jsValues]

/-! ## Small arithmetic helpers -/

theorem le_foldl_max (l : List Nat) (a : Nat) :
    (∀ b ∈ l, b ≤ l.foldl Nat.max a) ∧ a ≤ l.foldl Nat.max a := by
  induction l generalizing a with
  | nil => simp
  | cons x xs ih =>
    obtain ⟨h1, h2⟩ := ih (Nat.max a x)
    simp only [List.foldl_cons]
    refine ⟨?_, le_trans (Nat.le_max_left a x) h2⟩
    intro b hb
    rcases List.mem_cons.mp hb with hb | hb
    · subst hb
      exact le_trans (Nat.le_max_right a b) h2
    · exact h1 b hb

/-! ## C1: order values assigned by addItem -/

/-- C1 (counterexample): order values can be reused. After items "A"
(order 1) and "B" (order 2) are added and `removeItem` deletes item `4`
("B", the holder of the highest order), the next `addItem` assigns order 2
again — to the new item `6` — although order 2 had already been assigned
earlier to item `4`. -/
theorem addItem_order_reuse_counterexample :
    (jsGet traceItemB.items 4).map Item.order = some 2 ∧
    (removeItem 0 4 1 traceItemB).2 = Except.ok () ∧
    (jsGet (addItem inputC traceRemoveB).1.items 6).map Item.order = some 2 := by
  decide

/-- C1 (amended): every successful `addItem` assigns an order that is
positive and strictly greater than the order of every item currently stored
for that room (so orders are unique among coexisting items and increase
while no item is removed); reuse is only possible after the highest-order
item is deleted. -/
theorem addItem_order_exceeds_existing (input : AddItemInput) (s s' : State)
    (item : Item) (h : addItem input s = (s', Except.ok item)) :
    1 ≤ item.order ∧
      ∀ i ∈ jsValues s.items, i.roomId = input.roomId → i.order < item.order := by
  simp only [addItem] at h
  split at h
  · exact absurd (congrArg Prod.snd h) (by simp)
  case h_2 room hroom =>
    split at h
    · exact absurd (congrArg Prod.snd h) (by simp)
    split at h
    · exact absurd (congrArg Prod.snd h) (by simp)
    split at h
    · exact absurd (congrArg Prod.snd h) (by simp)
    split at h
    · exact absurd (congrArg Prod.snd h) (by simp)
    split at h
    · exact absurd (congrArg Prod.snd h) (by simp)
    · have hbuilt := Except.ok.inj (congrArg Prod.snd h)
      have horder : item.order =
          if (List.insertionSort (fun a b => a.order ≤ b.order)
              (List.filter (fun i => decide (i.roomId = input.roomId))
                (jsValues s.items))).length = 0 then 1
          else (List.map Item.order (List.insertionSort (fun a b => a.order ≤ b.order)
              (List.filter (fun i => decide (i.roomId = input.roomId))
                (jsValues s.items)))).foldl Nat.max 0 + 1 := by
        rw [← hbuilt]
      constructor
      · rw [horder]
        split
        · exact le_refl 1
        · exact Nat.le_add_left 1 _
      · intro i hi hiroom
        have hmem : i ∈ List.insertionSort (fun a b => a.order ≤ b.order)
            (List.filter (fun i => decide (i.roomId = input.roomId))
              (jsValues s.items)) :=
          (List.perm_insertionSort _ _).mem_iff.mpr
            (List.mem_filter.mpr ⟨hi, by simp [hiroom]⟩)
        rw [horder]
        split
        case isTrue hlen =>
          rw [List.length_eq_zero.mp hlen] at hmem
          simp at hmem
        case isFalse hlen =>
          have := (le_foldl_max (List.map Item.order
            (List.insertionSort (fun a b => a.order ≤ b.order)
              (List.filter (fun i => decide (i.roomId = input.roomId))
                (jsValues s.items)))) 0).1 i.order
            (List.mem_map_of_mem Item.order hmem)
          omega

/-- C1 (witness): the amended theorem applied to the concrete trace: adding
"B" to the room whose only item is "A" (order 1) assigns a positive order
greater than 1. -/
theorem addItem_order_exceeds_existing_witness :
    1 ≤ itemBValue.order ∧
      ∀ i ∈ jsValues traceItemA.items, i.roomId = inputB.roomId →
        i.order < itemBValue.order :=
  addItem_order_exceeds_existing inputB traceItemA
    (addItem inputB traceItemA).1 itemBValue (by decide)

/-! ## C3 counterexample -/

/-- C3 (counterexample): a non-empty vote list consisting of the single
non-numeric vote "?" still yields the empty `suggestedEstimate`, so
"empty exactly when the vote list is empty" fails. -/
theorem suggestedEstimate_nonempty_votes_counterexample :
    [qmarkVote] ≠ [] ∧
    (computeVoteStatistics [qmarkVote] FIBONACCI.deckValues).suggestedEstimate
      = "" := by
  decide

/-! ## C4 counterexample -/

/-- C4 (counterexample): the store-level `joinRoom` stores whatever role it
is given — joining with the FACILITATOR role succeeds and creates a
FACILITATOR participant. -/
theorem joinRoom_facilitator_role_counterexample :
    ((joinRoom joinMalloryInput traceRoom).2.map
      (fun r => r.participant.role)) = Except.ok ParticipantRole.FACILITATOR := by
  decide

/-! ## C6 counterexample -/

/-- C6 (counterexample): once a round is FINALIZED the item's
`currentRoundId` is cleared, so a repeat `revealVotes` fails with the
NoActiveRound error "No active round", not the InvalidState error
"Votes already revealed". -/
theorem revealVotes_finalized_error_counterexample :
    (jsGet traceFinalized.rounds 3).map Round.state
      = some RoundState.FINALIZED ∧
    (revealVotes 0 2 1 traceFinalized).2 = Except.error "No active round" ∧
    "No active round" ≠ "Votes already revealed" := by
  decide


/-! ## C2 and C10: updateItem behaviour -/

theorem dropWhile_replicate_false {p : Char → Bool} {c : Char}
    (h : p c = false) (n : Nat) :
    List.dropWhile p (List.replicate n c) = List.replicate n c := by
  cases n with
  | zero => rfl
  | succ n => simp [List.replicate, List.dropWhile, h]

theorem jsTrim_longDescription : jsTrim longDescription = longDescription := by
  have hws : Char.isWhitespace 'a' = false := by decide
  show String.mk ((((List.replicate 2001 'a').dropWhile
      Char.isWhitespace).reverse.dropWhile Char.isWhitespace).reverse)
    = longDescription
  rw [dropWhile_replicate_false hws, List.reverse_replicate,
    dropWhile_replicate_false hws, List.reverse_replicate]
  rfl

theorem longDescription_over_limit :
    jsTrim longDescription ≠ "" ∧
      jsLength (jsTrim longDescription) > ITEM_DESCRIPTION_MAX_LENGTH := by
  rw [jsTrim_longDescription]
  constructor
  · intro h
    have hlen : (List.replicate 2001 'a').length = ([] : List Char).length :=
      congrArg (fun s => s.data.length) h
    rw [List.length_replicate] at hlen
    simp at hlen
  · show ITEM_DESCRIPTION_MAX_LENGTH < (List.replicate 2001 'a').length
    rw [List.length_replicate]
    norm_num [ITEM_DESCRIPTION_MAX_LENGTH]

theorem updateItem_bad_desc_effect (s : State) (input : UpdateItemInput)
    (room : Room) (item : Item) (t0 d0 : String)
    (hroom : jsGet s.rooms input.roomId = some room)
    (hfac : room.facilitatorId = input.participantId)
    (hitem : jsGet s.items input.itemId = some item)
    (hroomid : item.roomId = input.roomId)
    (hv : s.votes = [])
    (ht : input.title = some t0)
    (hd : input.description = some d0)
    (ht1 : jsTrim t0 ≠ "")
    (ht2 : jsLength (jsTrim t0) ≤ ITEM_TITLE_MAX_LENGTH)
    (hd1 : jsTrim d0 ≠ "")
    (hd2 : jsLength (jsTrim d0) > ITEM_DESCRIPTION_MAX_LENGTH) :
    updateItem input s =
      ({ s with items := jsSet s.items input.itemId { item with title := jsTrim t0 } },
       Except.error "Description must be at most 2000 characters") := by
  have ht2' : ¬ jsLength (jsTrim t0) > ITEM_TITLE_MAX_LENGTH := by omega
  have hfac' : ¬ room.facilitatorId ≠ input.participantId := by simp [hfac]
  have hroomid' : ¬ item.roomId ≠ input.roomId := by simp [hroomid]
  simp only [updateItem, hroom, hitem, ht, hd]
  rw [if_neg hfac', if_neg hroomid']
  rw [if_neg (show ¬ _ = true by
    cases item.currentRoundId with
    | none => simp
    | some rid => cases h' : jsGet s.rounds rid <;> simp [h', hv, jsValues])]
  rw [if_neg ht1, if_neg ht2']
  simp only [if_pos (show jsTrim d0 ≠ "" ∧
    jsLength (jsTrim d0) > ITEM_DESCRIPTION_MAX_LENGTH from ⟨hd1, hd2⟩)]

/-- C10: `updateItem` succeeds on a finalized item (in an existing room,
called by the facilitator, with valid fields): the zero-votes guard
inspects only the current round, and a finalized item has
`currentRoundId = none`, so the edits are applied even though past rounds
may hold votes and a final estimate is recorded. -/
theorem updateItem_finalized_item_spec (s : State) (input : UpdateItemInput)
    (room : Room) (item : Item) (t0 d0 fe : String)
    (hroom : jsGet s.rooms input.roomId = some room)
    (hfac : room.facilitatorId = input.participantId)
    (hitem : jsGet s.items input.itemId = some item)
    (hroomid : item.roomId = input.roomId)
    (hfin : item.finalEstimate = some fe)
    (hcur : item.currentRoundId = none)
    (ht : input.title = some t0)
    (hd : input.description = some d0)
    (ht1 : jsTrim t0 ≠ "")
    (ht2 : jsLength (jsTrim t0) ≤ ITEM_TITLE_MAX_LENGTH)
    (hd2 : jsLength (jsTrim d0) ≤ ITEM_DESCRIPTION_MAX_LENGTH) :
    ∃ s', updateItem input s =
        (s', Except.ok { item with title := jsTrim t0
                                   description := some (jsTrim d0) }) ∧
      jsGet s'.items input.itemId =
        some { item with title := jsTrim t0
                         description := some (jsTrim d0) } := by
  have ht2' : ¬ jsLength (jsTrim t0) > ITEM_TITLE_MAX_LENGTH := by omega
  have hfac' : ¬ room.facilitatorId ≠ input.participantId := by simp [hfac]
  have hroomid' : ¬ item.roomId ≠ input.roomId := by simp [hroomid]
  simp only [updateItem, hroom, hitem, ht, hd, hcur]
  rw [if_neg hfac', if_neg hroomid']
  rw [if_neg (show ¬ _ = true by simp)]
  rw [if_neg ht1, if_neg ht2']
  simp only [if_neg (show ¬ (jsTrim d0 ≠ "" ∧
    jsLength (jsTrim d0) > ITEM_DESCRIPTION_MAX_LENGTH) from fun hcon =>
      absurd hd2 (by omega))]
  refine ⟨_, rfl, ?_⟩
  simp only [jsGet_jsSet_self]

/-- C2 (failing input): `updateItem` on the freshly added item "A" with the
valid title "New" and a 2001-character description fails with the
description-length error but has already overwritten the stored item's
title ("A" → "New"): the operation partially applies its effects before
raising the error. -/
theorem updateItem_partial_mutation_on_failure :
    (updateItem badUpdateInput traceItemA).2
      = Except.error "Description must be at most 2000 characters" ∧
    (jsGet (updateItem badUpdateInput traceItemA).1.items 2).map Item.title
      = some "New" ∧
    (jsGet traceItemA.items 2).map Item.title = some "A" := by
  have heff := updateItem_bad_desc_effect traceItemA badUpdateInput roomValue
    itemAValue "New" longDescription (by decide) (by decide) (by decide)
    (by decide) (by decide) rfl rfl (by decide) (by decide)
    longDescription_over_limit.1 longDescription_over_limit.2
  rw [heff]
  refine ⟨rfl, ?_, by decide⟩
  show (jsGet (jsSet traceItemA.items 2
    { itemAValue with title := jsTrim "New" }) 2).map Item.title = some "New"
  rw [jsGet_jsSet_self]
  decide

/-- C10 (witness): the concrete finalized trace (item `2` finalized at "5"
after a round in which participant `4` voted) accepts an edit of both
fields. -/
theorem updateItem_finalized_item_spec_witness :
    ∃ s', updateItem updateFinalizedInput traceVotedFinalized =
        (s', Except.ok updatedFinalItem) ∧
      jsGet s'.items updateFinalizedInput.itemId = some updatedFinalItem :=
  updateItem_finalized_item_spec traceVotedFinalized updateFinalizedInput
    roomValue finalizedItemValue "NewTitle" "NewDesc" "5" (by decide) (by decide)
    (by decide) (by decide) (by decide) (by decide) rfl rfl (by decide)
    (by decide) (by decide)

/-! ## C6, C7, C8: reveal, revote, removeItem -/

theorem removeLoop_mem (rs : List Round) (vm : JsMap Vote) (rm : JsMap Round) :
    (∀ p, p ∈ (rs.foldl (fun (vr : JsMap Vote × JsMap Round) r =>
        (vr.1.filter (fun p => decide (p.2.roundId ≠ r.id)), jsDelete vr.2 r.id))
        (vm, rm)).1 ↔
      p ∈ vm ∧ ∀ r ∈ rs, (p : Nat × Vote).2.roundId ≠ r.id) ∧
    (∀ q, q ∈ (rs.foldl (fun (vr : JsMap Vote × JsMap Round) r =>
        (vr.1.filter (fun p => decide (p.2.roundId ≠ r.id)), jsDelete vr.2 r.id))
        (vm, rm)).2 ↔
      q ∈ rm ∧ ∀ r ∈ rs, (q : Nat × Round).1 ≠ r.id) := by
  induction rs generalizing vm rm with
  | nil => simp
  | cons r rs ih =>
    simp only [List.foldl_cons]
    obtain ⟨ih1, ih2⟩ :=
      ih (vm.filter (fun p => decide (p.2.roundId ≠ r.id))) (jsDelete rm r.id)
    constructor
    · intro p
      rw [ih1 p, List.mem_filter]
      simp only [decide_eq_true_eq, List.forall_mem_cons]
      tauto
    · intro q
      rw [ih2 q]
      simp only [jsDelete, List.mem_filter, decide_eq_true_eq,
        List.forall_mem_cons]
      tauto

theorem removeLoop_sublist (rs : List Round) (vm : JsMap Vote) (rm : JsMap Round) :
    List.Sublist (rs.foldl (fun (vr : JsMap Vote × JsMap Round) r =>
        (vr.1.filter (fun p => decide (p.2.roundId ≠ r.id)), jsDelete vr.2 r.id))
        (vm, rm)).1 vm ∧
    List.Sublist (rs.foldl (fun (vr : JsMap Vote × JsMap Round) r =>
        (vr.1.filter (fun p => decide (p.2.roundId ≠ r.id)), jsDelete vr.2 r.id))
        (vm, rm)).2 rm := by
  induction rs generalizing vm rm with
  | nil => exact ⟨List.Sublist.refl vm, List.Sublist.refl rm⟩
  | cons r rs ih =>
    simp only [List.foldl_cons]
    obtain ⟨s1, s2⟩ :=
      ih (vm.filter (fun p => decide (p.2.roundId ≠ r.id))) (jsDelete rm r.id)
    exact ⟨s1.trans (List.filter_sublist vm), s2.trans (List.filter_sublist rm)⟩

/-- C8: after a successful `removeItem`, the item is gone, no round of the
item survives, and no vote in any of the item's rounds survives. -/
theorem removeItem_cascade_spec (s s' : State) (roomId itemId participantId : Nat)
    (hcoh : ∀ p ∈ s.rounds, (p : Nat × Round).2.id = p.1)
    (h : removeItem roomId itemId participantId s = (s', Except.ok ())) :
    jsGet s'.items itemId = none ∧
    (∀ r ∈ jsValues s'.rounds, r.itemId ≠ itemId) ∧
    (∀ v ∈ jsValues s'.votes, ∀ r ∈ jsValues s.rounds, r.itemId = itemId →
      v.roundId ≠ r.id) := by
  simp only [removeItem] at h
  split at h
  · exact absurd (congrArg Prod.snd h) (by simp)
  split at h
  · exact absurd (congrArg Prod.snd h) (by simp)
  split at h
  · exact absurd (congrArg Prod.snd h) (by simp)
  split at h
  · exact absurd (congrArg Prod.snd h) (by simp)
  · have hs' := congrArg Prod.fst h
    simp only at hs'
    subst hs'
    refine ⟨jsGet_jsDelete_self s.items itemId, ?_, ?_⟩
    · intro r hr hritem
      obtain ⟨q, hq, hqr⟩ := List.mem_map.mp hr
      have hq' := ((removeLoop_mem _ s.votes s.rounds).2 q).mp hq
      have hmem : r ∈ (jsValues s.rounds).filter
          (fun r => decide (r.itemId = itemId)) :=
        List.mem_filter.mpr ⟨hqr ▸ List.mem_map_of_mem Prod.snd hq'.1,
          by simp [hritem]⟩
      have := hq'.2 r hmem
      exact this (hqr ▸ (hcoh q hq'.1)).symm
    · intro v hv r hr hritem
      obtain ⟨p, hp, hpv⟩ := List.mem_map.mp hv
      have hp' := ((removeLoop_mem _ s.votes s.rounds).1 p).mp hp
      have hmem : r ∈ (jsValues s.rounds).filter
          (fun r => decide (r.itemId = itemId)) :=
        List.mem_filter.mpr ⟨hr, by simp [hritem]⟩
      exact hpv ▸ hp'.2 r hmem

theorem removeItem_cascade_spec_witness :
    jsGet (removeItem 0 2 1 traceVoted).1.items 2 = none ∧
    (∀ r ∈ jsValues (removeItem 0 2 1 traceVoted).1.rounds, r.itemId ≠ 2) ∧
    (∀ v ∈ jsValues (removeItem 0 2 1 traceVoted).1.votes,
      ∀ r ∈ jsValues traceVoted.rounds, r.itemId = 2 → v.roundId ≠ r.id) :=
  removeItem_cascade_spec traceVoted (removeItem 0 2 1 traceVoted).1 0 2 1
    (by decide) (by decide)

/-- C7: from a REVEALED current round, `revote` creates a fresh VOTING round
with `roundNumber + 1` and zero votes, repoints the item, and leaves the old
round and its votes untouched and queryable. -/
theorem revote_fresh_round_spec (s : State) (roomId itemId participantId : Nat)
    (room : Room) (item : Item) (rid : Nat) (oldRound : Round)
    (hroom : jsGet s.rooms roomId = some room)
    (hfac : room.facilitatorId = participantId)
    (hitem : jsGet s.items itemId = some item)
    (hroomid : item.roomId = roomId)
    (hcur : item.currentRoundId = some rid)
    (hround : jsGet s.rounds rid = some oldRound)
    (hrid : oldRound.itemId = itemId)
    (hstate : oldRound.state = RoundState.REVEALED)
    (hfreshr : ∀ p ∈ s.rounds, (p : Nat × Round).1 < s.nextId)
    (hfreshv : ∀ p ∈ s.votes, (p : Nat × Vote).2.roundId < s.nextId) :
    ∃ s' newRound,
      revote roomId itemId participantId s = (s', Except.ok newRound) ∧
      newRound.state = RoundState.VOTING ∧
      newRound.roundNumber = oldRound.roundNumber + 1 ∧
      getVotesByRound newRound.id s' = [] ∧
      (jsGet s'.items itemId).map Item.currentRoundId
        = some (some newRound.id) ∧
      getRoundById rid s' = some oldRound ∧
      getVotesByRound rid s' = getVotesByRound rid s := by
  have hfac' : ¬ room.facilitatorId ≠ participantId := by simp [hfac]
  have hroomid' : ¬ item.roomId ≠ roomId := by simp [hroomid]
  have hrid' : ¬ oldRound.itemId ≠ itemId := by simp [hrid]
  have hstate' : ¬ oldRound.state ≠ RoundState.REVEALED := by simp [hstate]
  simp only [revote, hroom, hitem, hcur, hround]
  rw [if_neg hfac', if_neg hroomid', if_neg hrid', if_neg hstate']
  refine ⟨_, _, rfl, rfl, rfl, ?_, ?_, ?_, rfl⟩
  · apply List.filter_eq_nil_iff.mpr
    intro v hv
    obtain ⟨p, hp, hpv⟩ := List.mem_map.mp hv
    have := hfreshv p hp
    simp only [decide_eq_true_eq]
    rw [← hpv]
    omega
  · show (jsGet (jsSet s.items itemId _) itemId).map Item.currentRoundId = _
    rw [jsGet_jsSet_self]
    rfl
  · show jsGet (jsSet s.rounds s.nextId _) rid = some oldRound
    have hlt : rid < s.nextId := hfreshr (rid, oldRound) (jsGet_mem hround)
    rw [jsGet_jsSet_ne _ _ _ _ (by omega)]
    exact hround

theorem revote_fresh_round_spec_witness :
    ∃ s' newRound,
      revote 0 2 1 traceVotedRevealed = (s', Except.ok newRound) ∧
      newRound.state = RoundState.VOTING ∧
      newRound.roundNumber = round3Revealed.roundNumber + 1 ∧
      getVotesByRound newRound.id s' = [] ∧
      (jsGet s'.items 2).map Item.currentRoundId = some (some newRound.id) ∧
      getRoundById 3 s' = some round3Revealed ∧
      getVotesByRound 3 s' = getVotesByRound 3 traceVotedRevealed :=
  revote_fresh_round_spec traceVotedRevealed 0 2 1 roomValue itemAValue 3
    round3Revealed (by decide) (by decide) (by decide) (by decide) (by decide)
    (by decide) (by decide) (by decide) (by decide) (by decide)

/-- C6 (amended): `revealVotes` succeeds only when the item's current round
is VOTING; after a successful reveal every vote of the round is revealed and
a second call fails with the InvalidState error "Votes already revealed";
once the round is FINALIZED the item's `currentRoundId` is `none` and the
call instead fails with "No active round". -/
theorem revealVotes_invalid_state_spec :
    (∀ s roomId itemId participantId s' res,
      revealVotes roomId itemId participantId s = (s', Except.ok res) →
      ∃ item rid round, jsGet s.items itemId = some item ∧
        item.currentRoundId = some rid ∧ jsGet s.rounds rid = some round ∧
        round.state = RoundState.VOTING) ∧
    (∀ s roomId itemId participantId room item rid round,
      (∀ p ∈ s.rounds, (p : Nat × Round).2.id = p.1) →
      jsGet s.rooms roomId = some room → room.facilitatorId = participantId →
      jsGet s.items itemId = some item → item.roomId = roomId →
      item.currentRoundId = some rid → jsGet s.rounds rid = some round →
      round.itemId = itemId → round.state = RoundState.VOTING →
      (∃ res, (revealVotes roomId itemId participantId s).2 = Except.ok res) ∧
      (∀ v ∈ jsValues (revealVotes roomId itemId participantId s).1.votes,
        v.roundId = round.id → v.isRevealed = true) ∧
      (revealVotes roomId itemId participantId
          (revealVotes roomId itemId participantId s).1).2
        = Except.error "Votes already revealed") ∧
    (∀ s roomId itemId participantId room item,
      jsGet s.rooms roomId = some room → room.facilitatorId = participantId →
      jsGet s.items itemId = some item → item.roomId = roomId →
      item.currentRoundId = none →
      (revealVotes roomId itemId participantId s).2
        = Except.error "No active round") := by
  refine ⟨?_, ?_, ?_⟩
  · intro s roomId itemId participantId s' res h
    simp only [revealVotes] at h
    split at h
    · exact absurd (congrArg Prod.snd h) (by simp)
    split at h
    · exact absurd (congrArg Prod.snd h) (by simp)
    split at h
    · exact absurd (congrArg Prod.snd h) (by simp)
    case h_2 item hitem =>
      split at h
      · exact absurd (congrArg Prod.snd h) (by simp)
      split at h
      · exact absurd (congrArg Prod.snd h) (by simp)
      case h_2 rid hcur =>
        split at h
        · exact absurd (congrArg Prod.snd h) (by simp)
        case h_2 round hround =>
          split at h
          · exact absurd (congrArg Prod.snd h) (by simp)
          split at h
          case isTrue => exact absurd (congrArg Prod.snd h) (by simp)
          case isFalse hstate =>
            exact ⟨item, rid, round, hitem, hcur, hround, not_ne_iff.mp hstate⟩
  · intro s roomId itemId participantId room item rid round hcoh hroom hfac
      hitem hroomid hcur hround hrit hstate
    have hfac' : ¬ room.facilitatorId ≠ participantId := by simp [hfac]
    have hroomid' : ¬ item.roomId ≠ roomId := by simp [hroomid]
    have hrit' : ¬ round.itemId ≠ itemId := by simp [hrit]
    have hstate' : ¬ round.state ≠ RoundState.VOTING := by simp [hstate]
    have hridq : round.id = rid := hcoh (rid, round) (jsGet_mem hround)
    simp only [revealVotes, hroom, hitem, hcur, hround]
    rw [if_neg hfac', if_neg hroomid', if_neg hrit', if_neg hstate']
    refine ⟨⟨_, rfl⟩, ?_, ?_⟩
    · intro v hv hvr
      obtain ⟨p, hp, hpv⟩ := List.mem_map.mp hv
      obtain ⟨q, hq, hqp⟩ := List.mem_map.mp hp
      by_cases hc : q.2.roundId = round.id
      · rw [← hpv, ← hqp]
        simp [hc]
      · exfalso
        rw [← hqp] at hpv
        simp only [if_neg hc] at hpv
        rw [← hpv] at hvr
        exact hc hvr
    · have hget : jsGet (jsSet s.rounds round.id { round with state := RoundState.REVEALED, votesRevealedAt := some s.now }) rid = some { round with state := RoundState.REVEALED, votesRevealedAt := some s.now } := by
        rw [hridq]
        exact jsGet_jsSet_self _ _ _
      simp only [revealVotes, hroom, hitem, hcur]
      rw [if_neg hfac', if_neg hroomid']
      simp only [hget]
      simp [hrit]
  · intro s roomId itemId participantId room item hroom hfac hitem hroomid hcur
    have hfac' : ¬ room.facilitatorId ≠ participantId := by simp [hfac]
    have hroomid' : ¬ item.roomId ≠ roomId := by simp [hroomid]
    simp only [revealVotes, hroom, hitem, hcur]
    rw [if_neg hfac', if_neg hroomid']

theorem revealVotes_invalid_state_spec_witness :
    (∃ res, (revealVotes 0 2 1 traceVoted).2 = Except.ok res) ∧
    (∀ v ∈ jsValues (revealVotes 0 2 1 traceVoted).1.votes,
      v.roundId = round3Voting.id → v.isRevealed = true) ∧
    (revealVotes 0 2 1 (revealVotes 0 2 1 traceVoted).1).2
      = Except.error "Votes already revealed" :=
  revealVotes_invalid_state_spec.2.1 traceVoted 0 2 1 roomValue itemAValue 3
    round3Voting (by decide) (by decide) (by decide) (by decide) (by decide)
    (by decide) (by decide) (by decide) (by decide)

/-! ## C4: join-route role coercion -/

/-- C4 (amended): through the HTTP join route, which coerces the request
role, a successfully created participant's role is PARTICIPANT or OBSERVER,
never FACILITATOR. -/
theorem joinRoomRoute_role_never_facilitator (roomId : Nat)
    (displayName : String) (role : Option String) (s s' : State)
    (res : JoinRoomResult)
    (h : joinRoomRoute roomId displayName role s = (s', Except.ok res)) :
    res.participant.role = ParticipantRole.PARTICIPANT ∨
    res.participant.role = ParticipantRole.OBSERVER := by
  simp only [joinRoomRoute] at h
  split at h
  · exact absurd (congrArg Prod.snd h) (by simp)
  · simp only [joinRoom] at h
    split at h
    · exact absurd (congrArg Prod.snd h) (by simp)
    split at h
    · exact absurd (congrArg Prod.snd h) (by simp)
    split at h
    · exact absurd (congrArg Prod.snd h) (by simp)
    split at h
    · exact absurd (congrArg Prod.snd h) (by simp)
    · have hres := Except.ok.inj (congrArg Prod.snd h)
      rw [← hres]
      by_cases hrole : role = some "OBSERVER" <;> simp [hrole]

theorem joinRoomRoute_role_never_facilitator_witness :
    routeResValue.participant.role = ParticipantRole.PARTICIPANT ∨
    routeResValue.participant.role = ParticipantRole.OBSERVER :=
  joinRoomRoute_role_never_facilitator 0 "Q" (some "FACILITATOR") traceRoom
    (joinRoomRoute 0 "Q" (some "FACILITATOR") traceRoom).1 routeResValue
    (by decide)

/-! ## C9: highest and lowest -/

theorem foldl_highest_spec (deckValues : List String) (t : List Vote)
    (b r : String)
    (h : t.foldl (fun best v =>
      match toNumeric v.cardValue deckValues, toNumeric best deckValues with
      | none, _ => best
      | some _, none => v.cardValue
      | some n, some bb => if n > bb then v.cardValue else best) b = r) :
    ((∀ v ∈ t, toNumeric v.cardValue deckValues = none) ∧ r = b) ∨
    (∃ n, toNumeric r deckValues = some n ∧
      (r = b ∨ ∃ v ∈ t, v.cardValue = r) ∧
      (∀ w ∈ t, ∀ m, toNumeric w.cardValue deckValues = some m → m ≤ n) ∧
      (∀ m, toNumeric b deckValues = some m → m ≤ n)) := by
  induction t generalizing b with
  | nil =>
    exact Or.inl ⟨fun v hv => absurd hv (List.not_mem_nil v), h.symm⟩
  | cons v t ih =>
    simp only [List.foldl_cons] at h
    rcases hv : toNumeric v.cardValue deckValues with _ | n0
    · simp only [hv] at h
      rcases ih b h with ⟨hall, hrb⟩ | ⟨n, hn, hor, hmax, hbnd⟩
      · refine Or.inl ⟨?_, hrb⟩
        intro w hw
        rcases List.mem_cons.mp hw with hw | hw
        · exact hw ▸ hv
        · exact hall w hw
      · refine Or.inr ⟨n, hn, ?_, ?_, hbnd⟩
        · rcases hor with h1 | ⟨w, hw, hwr⟩
          · exact Or.inl h1
          · exact Or.inr ⟨w, List.mem_cons_of_mem v hw, hwr⟩
        · intro w hw m hm
          rcases List.mem_cons.mp hw with hw | hw
          · rw [hw, hv] at hm
            exact absurd hm (by simp)
          · exact hmax w hw m hm
    · rcases hb : toNumeric b deckValues with _ | m0
      · simp only [hv, hb] at h
        rcases ih v.cardValue h with ⟨hall, hrb⟩ | ⟨n, hn, hor, hmax, hbnd⟩
        · refine Or.inr ⟨n0, hrb ▸ hv, Or.inr ⟨v, List.mem_cons_self v t, hrb.symm⟩,
            ?_, ?_⟩
          · intro w hw m hm
            rcases List.mem_cons.mp hw with hw | hw
            · rw [hw, hv] at hm
              exact le_of_eq (Option.some.inj hm).symm
            · rw [hall w hw] at hm
              exact absurd hm (by simp)
          · intro m hm
            simp [hb] at hm
        · have hn0 : n0 ≤ n := hbnd n0 hv
          refine Or.inr ⟨n, hn, ?_, ?_, ?_⟩
          · rcases hor with h1 | ⟨w, hw, hwr⟩
            · exact Or.inr ⟨v, List.mem_cons_self v t, h1.symm ▸ rfl⟩
            · exact Or.inr ⟨w, List.mem_cons_of_mem v hw, hwr⟩
          · intro w hw m hm
            rcases List.mem_cons.mp hw with hw | hw
            · rw [hw, hv] at hm
              exact le_trans (le_of_eq (Option.some.inj hm).symm) hn0
            · exact hmax w hw m hm
          · intro m hm
            simp [hb] at hm
      · by_cases hcmp : n0 > m0
        · simp only [hv, hb, if_pos hcmp] at h
          rcases ih v.cardValue h with ⟨hall, hrb⟩ | ⟨n, hn, hor, hmax, hbnd⟩
          · refine Or.inr ⟨n0, hrb ▸ hv, Or.inr ⟨v, List.mem_cons_self v t, hrb.symm⟩,
              ?_, ?_⟩
            · intro w hw m hm
              rcases List.mem_cons.mp hw with hw | hw
              · rw [hw, hv] at hm
                exact le_of_eq (Option.some.inj hm).symm
              · rw [hall w hw] at hm
                exact absurd hm (by simp)
            · intro m hm
              simp only [hb, Option.some.injEq] at hm
              exact hm ▸ le_of_lt hcmp
          · have hn0 : n0 ≤ n := hbnd n0 hv
            refine Or.inr ⟨n, hn, ?_, ?_, ?_⟩
            · rcases hor with h1 | ⟨w, hw, hwr⟩
              · exact Or.inr ⟨v, List.mem_cons_self v t, h1.symm ▸ rfl⟩
              · exact Or.inr ⟨w, List.mem_cons_of_mem v hw, hwr⟩
            · intro w hw m hm
              rcases List.mem_cons.mp hw with hw | hw
              · rw [hw, hv] at hm
                exact le_trans (le_of_eq (Option.some.inj hm).symm) hn0
              · exact hmax w hw m hm
            · intro m hm
              simp only [hb, Option.some.injEq] at hm
              exact hm ▸ le_trans (le_of_lt hcmp) hn0
        · simp only [hv, hb, if_neg hcmp] at h
          rcases ih b h with ⟨hall, hrb⟩ | ⟨n, hn, hor, hmax, hbnd⟩
          · refine Or.inr ⟨m0, hrb ▸ hb, Or.inl hrb, ?_, ?_⟩
            · intro w hw m hm
              rcases List.mem_cons.mp hw with hw | hw
              · rw [hw, hv] at hm
                have hmn : n0 = m := Option.some.inj hm
                linarith
              · rw [hall w hw] at hm
                exact absurd hm (by simp)
            · intro m hm
              simp only [hb, Option.some.injEq] at hm
              exact le_of_eq hm.symm
          · have hm0 : m0 ≤ n := hbnd m0 hb
            refine Or.inr ⟨n, hn, ?_, ?_, ?_⟩
            · rcases hor with h1 | ⟨w, hw, hwr⟩
              · exact Or.inl h1
              · exact Or.inr ⟨w, List.mem_cons_of_mem v hw, hwr⟩
            · intro w hw m hm
              rcases List.mem_cons.mp hw with hw | hw
              · rw [hw, hv] at hm
                have hmn : n0 = m := Option.some.inj hm
                have hm0n : m0 ≤ n := hbnd m0 hb
                linarith
              · exact hmax w hw m hm
            · intro m hm
              simp only [hb, Option.some.injEq] at hm
              exact hm ▸ hm0

theorem foldl_lowest_spec (deckValues : List String) (t : List Vote)
    (b r : String)
    (h : t.foldl (fun best v =>
      match toNumeric v.cardValue deckValues, toNumeric best deckValues with
      | none, _ => best
      | some _, none => v.cardValue
      | some n, some bb => if n < bb then v.cardValue else best) b = r) :
    ((∀ v ∈ t, toNumeric v.cardValue deckValues = none) ∧ r = b) ∨
    (∃ n, toNumeric r deckValues = some n ∧
      (r = b ∨ ∃ v ∈ t, v.cardValue = r) ∧
      (∀ w ∈ t, ∀ m, toNumeric w.cardValue deckValues = some m → n ≤ m) ∧
      (∀ m, toNumeric b deckValues = some m → n ≤ m)) := by
  induction t generalizing b with
  | nil =>
    exact Or.inl ⟨fun v hv => absurd hv (List.not_mem_nil v), h.symm⟩
  | cons v t ih =>
    simp only [List.foldl_cons] at h
    rcases hv : toNumeric v.cardValue deckValues with _ | n0
    · simp only [hv] at h
      rcases ih b h with ⟨hall, hrb⟩ | ⟨n, hn, hor, hmax, hbnd⟩
      · refine Or.inl ⟨?_, hrb⟩
        intro w hw
        rcases List.mem_cons.mp hw with hw | hw
        · exact hw ▸ hv
        · exact hall w hw
      · refine Or.inr ⟨n, hn, ?_, ?_, hbnd⟩
        · rcases hor with h1 | ⟨w, hw, hwr⟩
          · exact Or.inl h1
          · exact Or.inr ⟨w, List.mem_cons_of_mem v hw, hwr⟩
        · intro w hw m hm
          rcases List.mem_cons.mp hw with hw | hw
          · rw [hw, hv] at hm
            exact absurd hm (by simp)
          · exact hmax w hw m hm
    · rcases hb : toNumeric b deckValues with _ | m0
      · simp only [hv, hb] at h
        rcases ih v.cardValue h with ⟨hall, hrb⟩ | ⟨n, hn, hor, hmax, hbnd⟩
        · refine Or.inr ⟨n0, hrb ▸ hv, Or.inr ⟨v, List.mem_cons_self v t, hrb.symm⟩,
            ?_, ?_⟩
          · intro w hw m hm
            rcases List.mem_cons.mp hw with hw | hw
            · rw [hw, hv] at hm
              exact le_of_eq (Option.some.inj hm)
            · rw [hall w hw] at hm
              exact absurd hm (by simp)
          · intro m hm
            simp [hb] at hm
        · have hn0 : n ≤ n0 := hbnd n0 hv
          refine Or.inr ⟨n, hn, ?_, ?_, ?_⟩
          · rcases hor with h1 | ⟨w, hw, hwr⟩
            · exact Or.inr ⟨v, List.mem_cons_self v t, h1.symm ▸ rfl⟩
            · exact Or.inr ⟨w, List.mem_cons_of_mem v hw, hwr⟩
          · intro w hw m hm
            rcases List.mem_cons.mp hw with hw | hw
            · rw [hw, hv] at hm
              exact le_trans hn0 (le_of_eq (Option.some.inj hm))
            · exact hmax w hw m hm
          · intro m hm
            simp [hb] at hm
      · by_cases hcmp : n0 < m0
        · simp only [hv, hb, if_pos hcmp] at h
          rcases ih v.cardValue h with ⟨hall, hrb⟩ | ⟨n, hn, hor, hmax, hbnd⟩
          · refine Or.inr ⟨n0, hrb ▸ hv, Or.inr ⟨v, List.mem_cons_self v t, hrb.symm⟩,
              ?_, ?_⟩
            · intro w hw m hm
              rcases List.mem_cons.mp hw with hw | hw
              · rw [hw, hv] at hm
                exact le_of_eq (Option.some.inj hm)
              · rw [hall w hw] at hm
                exact absurd hm (by simp)
            · intro m hm
              simp only [hb, Option.some.injEq] at hm
              exact hm ▸ le_of_lt hcmp
          · have hn0 : n ≤ n0 := hbnd n0 hv
            refine Or.inr ⟨n, hn, ?_, ?_, ?_⟩
            · rcases hor with h1 | ⟨w, hw, hwr⟩
              · exact Or.inr ⟨v, List.mem_cons_self v t, h1.symm ▸ rfl⟩
              · exact Or.inr ⟨w, List.mem_cons_of_mem v hw, hwr⟩
            · intro w hw m hm
              rcases List.mem_cons.mp hw with hw | hw
              · rw [hw, hv] at hm
                exact le_trans hn0 (le_of_eq (Option.some.inj hm))
              · exact hmax w hw m hm
            · intro m hm
              simp only [hb, Option.some.injEq] at hm
              exact hm ▸ le_trans hn0 (le_of_lt hcmp)
        · simp only [hv, hb, if_neg hcmp] at h
          rcases ih b h with ⟨hall, hrb⟩ | ⟨n, hn, hor, hmax, hbnd⟩
          · refine Or.inr ⟨m0, hrb ▸ hb, Or.inl hrb, ?_, ?_⟩
            · intro w hw m hm
              rcases List.mem_cons.mp hw with hw | hw
              · rw [hw, hv] at hm
                have hmn : n0 = m := Option.some.inj hm
                linarith
              · rw [hall w hw] at hm
                exact absurd hm (by simp)
            · intro m hm
              simp only [hb, Option.some.injEq] at hm
              exact le_of_eq hm
          · have hm0 : n ≤ m0 := hbnd m0 hb
            refine Or.inr ⟨n, hn, ?_, ?_, ?_⟩
            · rcases hor with h1 | ⟨w, hw, hwr⟩
              · exact Or.inl h1
              · exact Or.inr ⟨w, List.mem_cons_of_mem v hw, hwr⟩
            · intro w hw m hm
              rcases List.mem_cons.mp hw with hw | hw
              · rw [hw, hv] at hm
                have hmn : n0 = m := Option.some.inj hm
                have hm0n : n ≤ m0 := hbnd m0 hb
                linarith
              · exact hmax w hw m hm
            · intro m hm
              simp only [hb, Option.some.injEq] at hm
              exact hm ▸ hm0


/-- C9: `highest`/`lowest` are the literal cardValue of a vote achieving the
maximum/minimum numeric rank among numeric-eligible votes; with a non-empty
vote list none of whose votes is numeric-eligible, both fall back to the
first vote's raw cardValue. -/
theorem computeVoteStatistics_highest_lowest_spec (voteList : List Vote)
    (deckValues : List String) :
    ((∃ v ∈ voteList, (toNumeric v.cardValue deckValues).isSome = true) →
      (∃ v ∈ voteList,
        (computeVoteStatistics voteList deckValues).highest = v.cardValue ∧
        ∃ n, toNumeric v.cardValue deckValues = some n ∧
          ∀ w ∈ voteList, ∀ m, toNumeric w.cardValue deckValues = some m →
            m ≤ n) ∧
      (∃ v ∈ voteList,
        (computeVoteStatistics voteList deckValues).lowest = v.cardValue ∧
        ∃ n, toNumeric v.cardValue deckValues = some n ∧
          ∀ w ∈ voteList, ∀ m, toNumeric w.cardValue deckValues = some m →
            n ≤ m)) ∧
    (∀ v0 vs, voteList = v0 :: vs →
      (∀ v ∈ voteList, toNumeric v.cardValue deckValues = none) →
      (computeVoteStatistics voteList deckValues).highest = v0.cardValue ∧
      (computeVoteStatistics voteList deckValues).lowest = v0.cardValue) := by
  have hH : List.foldl (fun best v =>
      match toNumeric v.cardValue deckValues, toNumeric best deckValues with
      | none, _ => best
      | some _, none => v.cardValue
      | some n, some bb => if n > bb then v.cardValue else best)
      ((voteList.head?.map Vote.cardValue).getD "") voteList
    = (computeVoteStatistics voteList deckValues).highest := rfl
  have hL : List.foldl (fun best v =>
      match toNumeric v.cardValue deckValues, toNumeric best deckValues with
      | none, _ => best
      | some _, none => v.cardValue
      | some n, some bb => if n < bb then v.cardValue else best)
      ((voteList.head?.map Vote.cardValue).getD "") voteList
    = (computeVoteStatistics voteList deckValues).lowest := rfl
  constructor
  · intro hex
    obtain ⟨ve, hve, hvs⟩ := hex
    have hne : voteList ≠ [] := fun he => absurd (he ▸ hve) (List.not_mem_nil ve)
    constructor
    · rcases foldl_highest_spec deckValues voteList _ _ hH with
        ⟨hall, _⟩ | ⟨n, hn, hor, hmax, _⟩
      · rw [hall ve hve] at hvs
        simp at hvs
      · rcases hor with h1 | ⟨w, hw, hwr⟩
        · cases voteList with
          | nil => exact absurd rfl hne
          | cons v0 vs =>
            have hb : (computeVoteStatistics (v0 :: vs) deckValues).highest
                = v0.cardValue := by
              rw [h1]
              simp
            exact ⟨v0, List.mem_cons_self v0 vs, hb, n, hb ▸ hn, hmax⟩
        · refine ⟨w, hw, hwr.symm, n, ?_, hmax⟩
          rw [← hwr] at hn
          exact hn
    · rcases foldl_lowest_spec deckValues voteList _ _ hL with
        ⟨hall, _⟩ | ⟨n, hn, hor, hmin, _⟩
      · rw [hall ve hve] at hvs
        simp at hvs
      · rcases hor with h1 | ⟨w, hw, hwr⟩
        · cases voteList with
          | nil => exact absurd rfl hne
          | cons v0 vs =>
            have hb : (computeVoteStatistics (v0 :: vs) deckValues).lowest
                = v0.cardValue := by
              rw [h1]
              simp
            exact ⟨v0, List.mem_cons_self v0 vs, hb, n, hb ▸ hn, hmin⟩
        · refine ⟨w, hw, hwr.symm, n, ?_, hmin⟩
          rw [← hwr] at hn
          exact hn
  · intro v0 vs hvl hall
    subst hvl
    constructor
    · rcases foldl_highest_spec deckValues (v0 :: vs) _ _ hH with
        ⟨_, hrb⟩ | ⟨n, hn, hor, _, _⟩
      · rw [hrb]
        simp
      · exfalso
        rcases hor with h1 | ⟨w, hw, hwr⟩
        · rw [h1] at hn
          simp [hall v0 (List.mem_cons_self v0 vs)] at hn
        · rw [← hwr] at hn
          rw [hall w hw] at hn
          exact absurd hn (by simp)
    · rcases foldl_lowest_spec deckValues (v0 :: vs) _ _ hL with
        ⟨_, hrb⟩ | ⟨n, hn, hor, _, _⟩
      · rw [hrb]
        simp
      · exfalso
        rcases hor with h1 | ⟨w, hw, hwr⟩
        · rw [h1] at hn
          simp [hall v0 (List.mem_cons_self v0 vs)] at hn
        · rw [← hwr] at hn
          rw [hall w hw] at hn
          exact absurd hn (by simp)

theorem computeVoteStatistics_highest_lowest_spec_witness :
    (∃ v ∈ c9Votes,
      (computeVoteStatistics c9Votes FIBONACCI.deckValues).highest
        = v.cardValue ∧
      ∃ n, toNumeric v.cardValue FIBONACCI.deckValues = some n ∧
        ∀ w ∈ c9Votes, ∀ m,
          toNumeric w.cardValue FIBONACCI.deckValues = some m → m ≤ n) ∧
    (∃ v ∈ c9Votes,
      (computeVoteStatistics c9Votes FIBONACCI.deckValues).lowest
        = v.cardValue ∧
      ∃ n, toNumeric v.cardValue FIBONACCI.deckValues = some n ∧
        ∀ w ∈ c9Votes, ∀ m,
          toNumeric w.cardValue FIBONACCI.deckValues = some m → n ≤ m) :=
  (computeVoteStatistics_highest_lowest_spec c9Votes
    FIBONACCI.deckValues).1 (by decide)

/-! ## C3: suggestedEstimate -/

theorem foldl_closest_split (r : ℚ) (xs : List (String × ℚ))
    (a res : String × ℚ)
    (h : xs.foldl (fun a b => if |a.2 - r| ≤ |b.2 - r| then a else b) a = res) :
    ∃ l₁ l₂, a :: xs = l₁ ++ res :: l₂ ∧
      (∀ y ∈ a :: xs, |res.2 - r| ≤ |y.2 - r|) ∧
      (∀ y ∈ l₁, |res.2 - r| < |y.2 - r|) := by
  induction xs generalizing a with
  | nil =>
    simp only [List.foldl_nil] at h
    subst h
    refine ⟨[], [], rfl, ?_, by simp⟩
    intro y hy
    rcases List.mem_cons.mp hy with hy | hy
    · exact hy ▸ le_refl _
    · exact absurd hy (List.not_mem_nil y)
  | cons b xs ih =>
    simp only [List.foldl_cons] at h
    by_cases hc : |a.2 - r| ≤ |b.2 - r|
    · rw [if_pos hc] at h
      obtain ⟨l₁, l₂, he, hmin, hlt⟩ := ih a h
      cases l₁ with
      | nil =>
        simp only [List.nil_append] at he
        have ha : a = res := (List.cons.inj he).1
        have hxs : xs = l₂ := (List.cons.inj he).2
        refine ⟨[], b :: xs, by rw [List.nil_append, ← ha], ?_, by simp⟩
        intro y hy
        rcases List.mem_cons.mp hy with hy | hy
        · exact hy ▸ hmin a (List.mem_cons_self a xs)
        rcases List.mem_cons.mp hy with hy | hy
        · exact hy ▸ le_trans (hmin a (List.mem_cons_self a xs)) hc
        · exact hmin y (List.mem_cons_of_mem a hy)
      | cons p l₁' =>
        have hap : a = p := (List.cons.inj he).1
        have hxs : xs = l₁' ++ res :: l₂ := (List.cons.inj he).2
        have hra : |res.2 - r| < |a.2 - r| := by
          rw [hap]
          exact hlt p (List.mem_cons_self p l₁')
        refine ⟨a :: b :: l₁', l₂, by rw [List.cons_append, List.cons_append, hxs],
          ?_, ?_⟩
        · intro y hy
          rcases List.mem_cons.mp hy with hy | hy
          · exact hy ▸ hmin a (List.mem_cons_self a xs)
          rcases List.mem_cons.mp hy with hy | hy
          · exact hy ▸ le_trans (hmin a (List.mem_cons_self a xs)) hc
          · exact hmin y (List.mem_cons_of_mem a hy)
        · intro y hy
          rcases List.mem_cons.mp hy with hy | hy
          · exact hy ▸ hra
          rcases List.mem_cons.mp hy with hy | hy
          · exact hy ▸ lt_of_lt_of_le hra hc
          · exact hlt y (List.mem_cons_of_mem p hy)
    · rw [if_neg hc] at h
      push_neg at hc
      obtain ⟨l₁, l₂, he, hmin, hlt⟩ := ih b h
      have hrb : |res.2 - r| ≤ |b.2 - r| := hmin b (List.mem_cons_self b xs)
      refine ⟨a :: l₁, l₂, by rw [List.cons_append, ← he], ?_, ?_⟩
      · intro y hy
        rcases List.mem_cons.mp hy with hy | hy
        · exact hy ▸ le_trans hrb (le_of_lt hc)
        · exact hmin y hy
      · intro y hy
        rcases List.mem_cons.mp hy with hy | hy
        · exact hy ▸ lt_of_le_of_lt hrb hc
        · exact hlt y hy

theorem foldl_closest_eq_find (r : ℚ) (x : String × ℚ)
    (xs : List (String × ℚ)) (res : String × ℚ)
    (h : xs.foldl (fun a b => if |a.2 - r| ≤ |b.2 - r| then a else b) x = res) :
    (x :: xs).find? (fun y => (x :: xs).all
      (fun z => decide (|y.2 - r| ≤ |z.2 - r|))) = some res := by
  obtain ⟨l₁, l₂, he, hmin, hlt⟩ := foldl_closest_split r xs x res h
  rw [he] at hmin ⊢
  rw [List.find?_append]
  have hnone : l₁.find? (fun y => (l₁ ++ res :: l₂).all
      (fun z => decide (|y.2 - r| ≤ |z.2 - r|))) = none := by
    apply List.find?_eq_none.mpr
    intro y hy hpy
    have hmem : res ∈ l₁ ++ res :: l₂ := by simp
    have := List.all_eq_true.mp hpy res hmem
    simp only [decide_eq_true_eq] at this
    exact absurd this (not_le.mpr (hlt y hy))
  rw [hnone, Option.none_or]
  apply List.find?_cons_of_pos
  rw [List.all_eq_true]
  intro z hz
  simpa using hmin z hz

/-- C3 (amended): the computed `suggestedEstimate` equals the spec-side
rule with the empty-string case corrected to "no numeric-eligible votes". -/
theorem computeVoteStatistics_suggestedEstimate_spec (voteList : List Vote)
    (deckValues : List String) :
    (computeVoteStatistics voteList deckValues).suggestedEstimate
      = suggestedEstimateSpec voteList deckValues := by
  have hperm := List.perm_insertionSort (α := ℚ) (· ≤ ·)
    (voteList.filterMap (fun v => toNumeric v.cardValue deckValues))
  have hlen := hperm.length_eq
  have hsum : ((voteList.filterMap (fun v => toNumeric v.cardValue deckValues)
        ).insertionSort (· ≤ ·)).foldl (· + ·) 0
      = (voteList.filterMap (fun v => toNumeric v.cardValue deckValues)).sum := by
    rw [← List.sum_eq_foldl]
    exact hperm.sum_eq
  simp only [computeVoteStatistics, suggestedEstimateSpec]
  rw [hlen, hsum]
  by_cases hnum : (voteList.filterMap
      (fun v => toNumeric v.cardValue deckValues)).length > 0
  · rw [if_pos hnum, if_pos hnum, if_pos hnum]
    cases hdeck : deckValues.filterMap
        (fun d => (toNumeric d deckValues).map (fun n => (d, n))) with
    | nil => rfl
    | cons x xs =>
      rw [foldl_closest_eq_find _ x xs _ rfl]
  · rw [if_neg hnum, if_neg hnum]

/-! ## C5: vote uniqueness and upsert -/

theorem votesWF_of_eq {s s' : State} (hv : s'.votes = s.votes)
    (hn : s.nextId ≤ s'.nextId) (h : VotesWF s) : VotesWF s' := by
  obtain ⟨h1, h2, h3, h4⟩ := h
  rw [VotesWF, hv]
  exact ⟨h1, h2, fun p hp => lt_of_lt_of_le (h3 p hp) hn, h4⟩

theorem createRoom_votes (input : CreateRoomInput) (s : State) :
    (createRoom input s).1.votes = s.votes ∧
      s.nextId ≤ (createRoom input s).1.nextId := by
  simp only [createRoom]
  constructor <;> (repeat' split) <;> simp

theorem joinRoom_votes (input : JoinRoomInput) (s : State) :
    (joinRoom input s).1.votes = s.votes ∧
      s.nextId ≤ (joinRoom input s).1.nextId := by
  simp only [joinRoom]
  constructor <;> (repeat' split) <;> simp

theorem leaveRoom_votes (roomId participantId : Nat) (s : State) :
    (leaveRoom roomId participantId s).1.votes = s.votes ∧
      s.nextId ≤ (leaveRoom roomId participantId s).1.nextId := by
  simp only [leaveRoom]
  constructor <;> (repeat' split) <;> simp

theorem closeRoom_votes (roomId participantId : Nat) (s : State) :
    (closeRoom roomId participantId s).1.votes = s.votes ∧
      s.nextId ≤ (closeRoom roomId participantId s).1.nextId := by
  simp only [closeRoom]
  constructor <;> (repeat' split) <;> simp

theorem addItem_votes (input : AddItemInput) (s : State) :
    (addItem input s).1.votes = s.votes ∧
      s.nextId ≤ (addItem input s).1.nextId := by
  simp only [addItem]
  constructor <;> (repeat' split) <;> simp

theorem updateItem_votes (input : UpdateItemInput) (s : State) :
    (updateItem input s).1.votes = s.votes ∧
      s.nextId ≤ (updateItem input s).1.nextId := by
  simp only [updateItem]
  cases hroom : jsGet s.rooms input.roomId with
  | none => simp
  | some room =>
    by_cases hfac : room.facilitatorId ≠ input.participantId
    · simp [hfac]
    · simp only [if_neg hfac]
      cases hitem : jsGet s.items input.itemId with
      | none => simp
      | some item =>
        by_cases hrm : item.roomId ≠ input.roomId
        · simp [hrm]
        · simp only [if_neg hrm]
          split
          · simp
          · cases input.title with
            | none =>
              cases input.description with
              | none => simp
              | some d => simp [apply_ite]
            | some t =>
              by_cases ht : jsTrim t = ""
              · simp [ht]
              · simp only [if_neg ht]
                by_cases hl : jsLength (jsTrim t) > ITEM_TITLE_MAX_LENGTH
                · simp [hl]
                · simp only [if_neg hl]
                  cases input.description with
                  | none => simp
                  | some d => simp [apply_ite]

theorem revote_votes (roomId itemId participantId : Nat) (s : State) :
    (revote roomId itemId participantId s).1.votes = s.votes ∧
      s.nextId ≤ (revote roomId itemId participantId s).1.nextId := by
  simp only [revote]
  constructor <;> (repeat' split) <;> simp

theorem recordFinalEstimate_votes (roomId itemId participantId : Nat)
    (cardValue : String) (s : State) :
    (recordFinalEstimate roomId itemId participantId cardValue s).1.votes
      = s.votes ∧
    s.nextId ≤
      (recordFinalEstimate roomId itemId participantId cardValue s).1.nextId := by
  simp only [recordFinalEstimate]
  constructor <;> (repeat' split) <;> simp

theorem removeItem_votes (roomId itemId participantId : Nat) (s : State) :
    List.Sublist ((removeItem roomId itemId participantId s).1.votes) s.votes ∧
      s.nextId ≤ (removeItem roomId itemId participantId s).1.nextId := by
  simp only [removeItem]
  constructor <;> (repeat' split) <;>
    first
      | exact (removeLoop_sublist _ s.votes s.rounds).1
      | simp

theorem votesWF_of_sublist {s s' : State} (hv : List.Sublist s'.votes s.votes)
    (hn : s.nextId ≤ s'.nextId) (h : VotesWF s) : VotesWF s' := by
  obtain ⟨h1, h2, h3, h4⟩ := h
  have hsub := hv.subset
  exact ⟨fun p hp => h1 p (hsub hp), (hv.map Prod.fst).nodup h2,
    fun p hp => lt_of_lt_of_le (h3 p (hsub hp)) hn,
    fun p hp q hq hr hpid => h4 p (hsub hp) q (hsub hq) hr hpid⟩

theorem jsSet_append_key {α : Type} (m₁ m₂ : JsMap α) (k : Nat) (w v : α)
    (hk1 : ∀ p ∈ m₁, (p : Nat × α).1 ≠ k) :
    jsSet (m₁ ++ (k, w) :: m₂) k v = m₁ ++ (k, v) :: m₂ := by
  induction m₁ with
  | nil => simp [jsSet]
  | cons p m₁ ih =>
    have hp : p.1 ≠ k := hk1 p (List.mem_cons_self p m₁)
    simp only [List.cons_append, jsSet, if_neg hp, List.cons.injEq, true_and]
    exact ih (fun q hq => hk1 q (List.mem_cons_of_mem p hq))

theorem votesWF_update (s : State) (ex : Vote) (cv : String) (t : Nat)
    (h : VotesWF s) (hmem : ex ∈ jsValues s.votes) :
    VotesWF { s with
      votes := jsSet s.votes ex.id { ex with cardValue := cv, votedAt := t }
      now := s.now + 1 } := by
  obtain ⟨h1, h2, h3, h4⟩ := h
  obtain ⟨p, hp, hpe⟩ := List.mem_map.mp hmem
  have hpk : p = (ex.id, ex) := by
    have hid := h1 p hp
    calc p = (p.1, p.2) := rfl
      _ = (ex.id, ex) := by rw [hpe, ← hid, hpe]
  obtain ⟨m₁, m₂, he, hs, hk1, hk2⟩ :=
    jsSet_mem_split h2 (hpk ▸ hp) { ex with cardValue := cv, votedAt := t }
  have hm1 : ∀ q ∈ m₁, q ∈ s.votes := fun q hq =>
    he ▸ List.mem_append_left _ hq
  have hm2 : ∀ q ∈ m₂, q ∈ s.votes := fun q hq =>
    he ▸ List.mem_append_right _ (List.mem_cons_of_mem _ hq)
  have hexmem : (ex.id, ex) ∈ s.votes := hpk ▸ hp
  constructor
  · intro q hq
    rw [show ({ s with
        votes := jsSet s.votes ex.id { ex with cardValue := cv, votedAt := t }
        now := s.now + 1 } : State).votes
      = m₁ ++ (ex.id, { ex with cardValue := cv, votedAt := t }) :: m₂ from hs]
      at hq
    rcases List.mem_append.mp hq with hq | hq
    · exact h1 q (hm1 q hq)
    rcases List.mem_cons.mp hq with hq | hq
    · rw [hq]
    · exact h1 q (hm2 q hq)
  constructor
  · have hkeys : (jsSet s.votes ex.id
        { ex with cardValue := cv, votedAt := t }).map Prod.fst
      = s.votes.map Prod.fst := by
      rw [hs, he]
      simp
    show ((jsSet s.votes ex.id _).map Prod.fst).Nodup
    rw [hkeys]
    exact h2
  constructor
  · intro q hq
    rw [show ({ s with
        votes := jsSet s.votes ex.id { ex with cardValue := cv, votedAt := t }
        now := s.now + 1 } : State).votes
      = m₁ ++ (ex.id, { ex with cardValue := cv, votedAt := t }) :: m₂ from hs]
      at hq
    show q.1 < s.nextId
    rcases List.mem_append.mp hq with hq | hq
    · exact h3 q (hm1 q hq)
    rcases List.mem_cons.mp hq with hq | hq
    · rw [hq]
      exact h3 (ex.id, ex) hexmem
    · exact h3 q (hm2 q hq)
  · intro q1 hq1 q2 hq2 hr hpid
    rw [show ({ s with
        votes := jsSet s.votes ex.id { ex with cardValue := cv, votedAt := t }
        now := s.now + 1 } : State).votes
      = m₁ ++ (ex.id, { ex with cardValue := cv, votedAt := t }) :: m₂ from hs]
      at hq1 hq2
    -- map each entry of the new list to its old counterpart
    have hold : ∀ q, q ∈ m₁ ++ (ex.id, { ex with cardValue := cv, votedAt := t }) :: m₂ →
        (q = (ex.id, { ex with cardValue := cv, votedAt := t }) ∧
          (ex.id, ex) ∈ s.votes) ∨ (q ∈ s.votes ∧ q.1 ≠ ex.id) := by
      intro q hq
      rcases List.mem_append.mp hq with hq | hq
      · exact Or.inr ⟨hm1 q hq, hk1 q hq⟩
      rcases List.mem_cons.mp hq with hq | hq
      · exact Or.inl ⟨hq, hexmem⟩
      · exact Or.inr ⟨hm2 q hq, hk2 q hq⟩
    rcases hold q1 hq1 with ⟨he1, _⟩ | ⟨ho1, hne1⟩ <;>
      rcases hold q2 hq2 with ⟨he2, _⟩ | ⟨ho2, hne2⟩
    · rw [he1, he2]
    · exfalso
      rw [he1] at hr hpid
      have := h4 (ex.id, ex) hexmem q2 ho2 (by simpa using hr)
        (by simpa using hpid)
      exact hne2 (by rw [← this])
    · exfalso
      rw [he2] at hr hpid
      have := h4 q1 ho1 (ex.id, ex) hexmem (by simpa using hr)
        (by simpa using hpid)
      exact hne1 (by rw [this])
    · exact h4 q1 ho1 q2 ho2 hr hpid

theorem votesWF_insert (s : State) (v : Vote) (h : VotesWF s)
    (hid : v.id = s.nextId)
    (hnew : ∀ w ∈ jsValues s.votes,
      ¬ (w.roundId = v.roundId ∧ w.participantId = v.participantId)) :
    VotesWF { s with votes := jsSet s.votes v.id v, nextId := s.nextId + 1, now := s.now + 1 } := by
  obtain ⟨h1, h2, h3, h4⟩ := h
  have hfresh : ∀ p ∈ s.votes, (p : Nat × Vote).1 ≠ v.id := by
    intro p hp
    rw [hid]
    exact Nat.ne_of_lt (h3 p hp)
  have hv : jsSet s.votes v.id v = s.votes ++ [(v.id, v)] :=
    jsSet_fresh_append hfresh v
  constructor
  · intro q hq
    rw [show ({ s with votes := jsSet s.votes v.id v, nextId := s.nextId + 1, now := s.now + 1 } : State).votes = s.votes ++ [(v.id, v)] from hv] at hq
    rcases List.mem_append.mp hq with hq | hq
    · exact h1 q hq
    · rw [List.mem_singleton.mp hq]
  constructor
  · show ((jsSet s.votes v.id v).map Prod.fst).Nodup
    rw [hv, List.map_append]
    rw [List.nodup_append]
    refine ⟨h2, List.nodup_singleton _, ?_⟩
    intro a ha hb
    obtain ⟨p, hp, hpa⟩ := List.mem_map.mp ha
    simp only [List.map_cons, List.map_nil, List.mem_singleton] at hb
    exact hfresh p hp (hpa.symm ▸ hb)
  constructor
  · intro q hq
    rw [show ({ s with votes := jsSet s.votes v.id v, nextId := s.nextId + 1, now := s.now + 1 } : State).votes = s.votes ++ [(v.id, v)] from hv] at hq
    show q.1 < s.nextId + 1
    rcases List.mem_append.mp hq with hq | hq
    · exact lt_trans (h3 q hq) (Nat.lt_succ_self _)
    · rw [List.mem_singleton.mp hq, hid]
      exact Nat.lt_succ_self _
  · intro q1 hq1 q2 hq2 hr hpid
    rw [show ({ s with votes := jsSet s.votes v.id v, nextId := s.nextId + 1, now := s.now + 1 } : State).votes = s.votes ++ [(v.id, v)] from hv] at hq1 hq2
    rcases List.mem_append.mp hq1 with hq1 | hq1 <;>
      rcases List.mem_append.mp hq2 with hq2 | hq2
    · exact h4 q1 hq1 q2 hq2 hr hpid
    · exfalso
      rw [List.mem_singleton.mp hq2] at hr hpid
      exact hnew q1.2 (List.mem_map_of_mem Prod.snd hq1) ⟨hr, hpid⟩
    · exfalso
      rw [List.mem_singleton.mp hq1] at hr hpid
      exact hnew q2.2 (List.mem_map_of_mem Prod.snd hq2) ⟨hr.symm, hpid.symm⟩
    · rw [List.mem_singleton.mp hq1, List.mem_singleton.mp hq2]

theorem revealVotes_wf (roomId itemId participantId : Nat) (s : State)
    (h : VotesWF s) : VotesWF (revealVotes roomId itemId participantId s).1 := by
  obtain ⟨h1, h2, h3, h4⟩ := h
  simp only [revealVotes]
  repeat' split
  all_goals try exact ⟨h1, h2, h3, h4⟩
  rename_i round heq hrit hstate
  constructor
  · intro q hq
    obtain ⟨p, hp, hpq⟩ := List.mem_map.mp hq
    subst hpq
    show (if p.2.roundId = round.id then
        (p.1, { p.2 with isRevealed := true }) else p).2.id = _
    by_cases hc : p.2.roundId = round.id
    · simpa [hc] using h1 p hp
    · simpa [hc] using h1 p hp
  constructor
  · show ((s.votes.map _).map Prod.fst).Nodup
    rw [List.map_map]
    have : (s.votes.map (Prod.fst ∘ fun p =>
        if p.2.roundId = round.id then (p.1, { p.2 with isRevealed := true })
        else p)) = s.votes.map Prod.fst := by
      apply List.map_congr_left
      intro p _
      by_cases hc : p.2.roundId = round.id <;> simp [hc]
    rw [this]
    exact h2
  constructor
  · intro q hq
    obtain ⟨p, hp, hpq⟩ := List.mem_map.mp hq
    subst hpq
    show (if p.2.roundId = round.id then
        (p.1, { p.2 with isRevealed := true }) else p).1 < s.nextId
    by_cases hc : p.2.roundId = round.id
    · simpa [hc] using h3 p hp
    · simpa [hc] using h3 p hp
  · intro q1 hq1 q2 hq2 hr hpid
    obtain ⟨p1, hp1, hpq1⟩ := List.mem_map.mp hq1
    obtain ⟨p2, hp2, hpq2⟩ := List.mem_map.mp hq2
    subst hpq1
    subst hpq2
    have hr1 : ∀ p : Nat × Vote, ((if p.2.roundId = round.id then
        (p.1, { p.2 with isRevealed := true }) else p) : Nat × Vote).2.roundId
          = p.2.roundId ∧
        ((if p.2.roundId = round.id then
        (p.1, { p.2 with isRevealed := true }) else p) : Nat × Vote).2.participantId
          = p.2.participantId := by
      intro p
      by_cases hc : p.2.roundId = round.id <;> simp [hc]
    rw [(hr1 p1).1, (hr1 p2).1] at hr
    rw [(hr1 p1).2, (hr1 p2).2] at hpid
    rw [h4 p1 hp1 p2 hp2 hr hpid]

theorem castVote_wf (input : CastVoteInput) (s : State) (h : VotesWF s) :
    VotesWF (castVote input s).1 := by
  simp only [castVote]
  repeat' split
  all_goals try exact h
  · rename_i ex hex
    exact votesWF_update s ex input.cardValue s.now h
      (List.mem_of_find?_eq_some hex)
  · rename_i round heqround hrit hstate hcard xv hex
    refine votesWF_insert s { id := s.nextId, roundId := round.id, participantId := input.participantId, cardValue := input.cardValue, votedAt := s.now, isRevealed := false } h rfl ?_
    intro w hw hc
    exact absurd (by simpa using hc) (by
      simpa using List.find?_eq_none.mp hex w hw)

theorem applyOp_wf (op : Op) (s : State) (h : VotesWF s) :
    VotesWF (applyOp op s) := by
  cases op with
  | createRoom input =>
    exact votesWF_of_eq (createRoom_votes input s).1 (createRoom_votes input s).2 h
  | joinRoom input =>
    exact votesWF_of_eq (joinRoom_votes input s).1 (joinRoom_votes input s).2 h
  | leaveRoom roomId participantId =>
    exact votesWF_of_eq (leaveRoom_votes roomId participantId s).1
      (leaveRoom_votes roomId participantId s).2 h
  | closeRoom roomId participantId =>
    exact votesWF_of_eq (closeRoom_votes roomId participantId s).1
      (closeRoom_votes roomId participantId s).2 h
  | addItem input =>
    exact votesWF_of_eq (addItem_votes input s).1 (addItem_votes input s).2 h
  | updateItem input =>
    exact votesWF_of_eq (updateItem_votes input s).1 (updateItem_votes input s).2 h
  | removeItem roomId itemId participantId =>
    exact votesWF_of_sublist (removeItem_votes roomId itemId participantId s).1
      (removeItem_votes roomId itemId participantId s).2 h
  | castVote input => exact castVote_wf input s h
  | revealVotes roomId itemId participantId =>
    exact revealVotes_wf roomId itemId participantId s h
  | revote roomId itemId participantId =>
    exact votesWF_of_eq (revote_votes roomId itemId participantId s).1
      (revote_votes roomId itemId participantId s).2 h
  | recordFinalEstimate roomId itemId participantId cardValue =>
    exact votesWF_of_eq
      (recordFinalEstimate_votes roomId itemId participantId cardValue s).1
      (recordFinalEstimate_votes roomId itemId participantId cardValue s).2 h

theorem runOps_wf (ops : List Op) (s : State) (h : VotesWF s) :
    VotesWF (runOps ops s) := by
  induction ops generalizing s with
  | nil => exact h
  | cons op ops ih =>
    exact ih (applyOp op s) (applyOp_wf op s h)

theorem initialState_wf : VotesWF initialState := by
  decide

theorem castVote_upsert (input : CastVoteInput) (s : State)
    (room : Room) (participant : Participant) (item : Item) (rid : Nat)
    (round : Round)
    (h : VotesWF s)
    (hroom : jsGet s.rooms input.roomId = some room)
    (hclosed : room.state ≠ RoomState.CLOSED)
    (hpart : jsGet s.participants input.participantId = some participant)
    (hproom : participant.roomId = input.roomId)
    (hactive : participant.isActive = true)
    (hobs : participant.role ≠ ParticipantRole.OBSERVER)
    (hitem : jsGet s.items input.itemId = some item)
    (hiroom : item.roomId = input.roomId)
    (hcur : item.currentRoundId = some rid)
    (hround : jsGet s.rounds rid = some round)
    (hrit : round.itemId = input.itemId)
    (hstate : round.state = RoundState.VOTING)
    (hcard : room.deckValues.contains input.cardValue = true) :
    ∃ s' v, castVote input s = (s', Except.ok v) ∧
      v.cardValue = input.cardValue ∧
      v.roundId = round.id ∧ v.participantId = input.participantId ∧
      pairVotes s' round.id input.participantId = [v] ∧
      s'.rooms = s.rooms ∧ s'.participants = s.participants ∧
      s'.items = s.items ∧ s'.rounds = s.rounds ∧ VotesWF s' := by
  obtain ⟨h1, h2, h3, h4⟩ := h
  have hclosed' : ¬ room.state = RoomState.CLOSED := hclosed
  have hpart' : ¬ (participant.roomId ≠ input.roomId ∨
      participant.isActive = false) := by simp [hproom, hactive]
  have hobs' : ¬ participant.role = ParticipantRole.OBSERVER := hobs
  have hiroom' : ¬ item.roomId ≠ input.roomId := by simp [hiroom]
  have hrit' : ¬ round.itemId ≠ input.itemId := by simp [hrit]
  have hstate' : ¬ round.state ≠ RoundState.VOTING := by simp [hstate]
  have hcard' : ¬ ¬ room.deckValues.contains input.cardValue = true :=
    not_not_intro hcard
  simp only [castVote, hroom, hpart, hitem, hcur, hround]
  rw [if_neg hclosed', if_neg hpart', if_neg hobs', if_neg hiroom',
    if_neg hrit', if_neg hstate', if_neg hcard']
  cases hex : (jsValues s.votes).find?
      (fun v => decide (v.roundId = round.id ∧
        v.participantId = input.participantId)) with
  | some ex =>
    have hpred : ex.roundId = round.id ∧ ex.participantId = input.participantId := by
      simpa using List.find?_some hex
    have hmem : ex ∈ jsValues s.votes := List.mem_of_find?_eq_some hex
    obtain ⟨p, hp, hpe⟩ := List.mem_map.mp hmem
    have hpk : p = (ex.id, ex) := by
      have hid := h1 p hp
      calc p = (p.1, p.2) := rfl
        _ = (ex.id, ex) := by rw [hpe, ← hid, hpe]
    obtain ⟨m₁, m₂, he, hs, hk1, hk2⟩ :=
      jsSet_mem_split h2 (hpk ▸ hp)
        { ex with cardValue := input.cardValue, votedAt := s.now }
    have hexmem : (ex.id, ex) ∈ s.votes := hpk ▸ hp
    have hfailm : ∀ (m : JsMap Vote), (∀ q ∈ m, q ∈ s.votes) →
        (∀ q ∈ m, (q : Nat × Vote).1 ≠ ex.id) →
        ∀ w ∈ jsValues m, ¬ ((fun v => decide (v.roundId = round.id ∧
          v.participantId = input.participantId)) w = true) := by
      intro m hsub hkm w hw hpw
      obtain ⟨q, hq, hqw⟩ := List.mem_map.mp hw
      simp only [decide_eq_true_eq] at hpw
      have heqq := h4 q (hsub q hq) (ex.id, ex) hexmem
        (by rw [hqw]; rw [hpw.1, hpred.1])
        (by rw [hqw]; rw [hpw.2, hpred.2])
      exact hkm q hq (by rw [heqq])
    refine ⟨_, _, rfl, rfl, hpred.1, hpred.2, ?_, rfl, rfl, rfl, rfl,
      votesWF_update s ex input.cardValue s.now ⟨h1, h2, h3, h4⟩ hmem⟩
    show List.filter _ (jsValues (jsSet s.votes ex.id _)) = _
    rw [hs]
    have hv1 : jsValues (m₁ ++ (ex.id,
        { ex with cardValue := input.cardValue, votedAt := s.now }) :: m₂)
      = jsValues m₁ ++ { ex with cardValue := input.cardValue, votedAt := s.now }
          :: jsValues m₂ := by
      simp [jsValues]
    rw [hv1, List.filter_append]
    rw [List.filter_eq_nil_iff.mpr (hfailm m₁
      (fun q hq => he ▸ List.mem_append_left _ hq) hk1)]
    rw [List.filter_cons_of_pos (by simp [hpred.1, hpred.2])]
    rw [List.filter_eq_nil_iff.mpr (hfailm m₂
      (fun q hq => he ▸ List.mem_append_right _ (List.mem_cons_of_mem _ hq))
      hk2)]
    rfl
  | none =>
    have hfresh : ∀ p ∈ s.votes, (p : Nat × Vote).1 ≠ s.nextId :=
      fun p hp => Nat.ne_of_lt (h3 p hp)
    have happ : jsSet s.votes s.nextId { id := s.nextId, roundId := round.id, participantId := input.participantId, cardValue := input.cardValue, votedAt := s.now, isRevealed := false } = s.votes ++ [(s.nextId, { id := s.nextId, roundId := round.id, participantId := input.participantId, cardValue := input.cardValue, votedAt := s.now, isRevealed := false })] := jsSet_fresh_append hfresh _
    refine ⟨_, _, rfl, rfl, rfl, rfl, ?_, rfl, rfl, rfl, rfl, ?_⟩
    · show List.filter _ (jsValues (jsSet s.votes _ _)) = _
      rw [happ]
      have hv1 : jsValues (s.votes ++ [(s.nextId, { id := s.nextId, roundId := round.id, participantId := input.participantId, cardValue := input.cardValue, votedAt := s.now, isRevealed := false })]) = jsValues s.votes ++ [({ id := s.nextId, roundId := round.id, participantId := input.participantId, cardValue := input.cardValue, votedAt := s.now, isRevealed := false } : Vote)] := by
        simp [jsValues]
      rw [hv1, List.filter_append]
      rw [List.filter_eq_nil_iff.mpr (fun w hw => by
        simpa using List.find?_eq_none.mp hex w hw)]
      rw [List.filter_cons_of_pos (by simp)]
      rfl
    · refine votesWF_insert s { id := s.nextId, roundId := round.id, participantId := input.participantId, cardValue := input.cardValue, votedAt := s.now, isRevealed := false } ⟨h1, h2, h3, h4⟩ rfl ?_
      intro w hw hc
      exact absurd (by simpa using hc) (by
        simpa using List.find?_eq_none.mp hex w hw)

/-- C5: at most one vote per (roundId, participantId) pair holds after any
sequence of operations from the empty store, and a second `castVote` by the
same participant in a VOTING round overwrites the existing vote, leaving
exactly one vote for the pair carrying the latest value. -/
theorem vote_uniqueness_and_upsert :
    (∀ ops : List Op, VotesWF (runOps ops initialState)) ∧
    (∀ (input : CastVoteInput) (c2 : String) (s : State)
      (room : Room) (participant : Participant) (item : Item) (rid : Nat)
      (round : Round),
      VotesWF s →
      jsGet s.rooms input.roomId = some room →
      room.state ≠ RoomState.CLOSED →
      jsGet s.participants input.participantId = some participant →
      participant.roomId = input.roomId →
      participant.isActive = true →
      participant.role ≠ ParticipantRole.OBSERVER →
      jsGet s.items input.itemId = some item →
      item.roomId = input.roomId →
      item.currentRoundId = some rid →
      jsGet s.rounds rid = some round →
      round.itemId = input.itemId →
      round.state = RoundState.VOTING →
      room.deckValues.contains input.cardValue = true →
      room.deckValues.contains c2 = true →
      c2 ≠ input.cardValue →
      ∃ s₁ v₁ s₂ v₂,
        castVote input s = (s₁, Except.ok v₁) ∧
        castVote { input with cardValue := c2 } s₁ = (s₂, Except.ok v₂) ∧
        v₂.cardValue = c2 ∧
        pairVotes s₂ round.id input.participantId = [v₂]) := by
  constructor
  · intro ops
    exact runOps_wf ops initialState initialState_wf
  · intro input c2 s room participant item rid round hwf hroom hclosed hpart
      hproom hactive hobs hitem hiroom hcur hround hrit hstate hcard1 hcard2 hne
    obtain ⟨s₁, v₁, heq1, _, _, _, _, hrooms1, hparts1, hitems1, hrounds1, hwf1⟩ :=
      castVote_upsert input s room participant item rid round hwf hroom
        hclosed hpart hproom hactive hobs hitem hiroom hcur hround hrit
        hstate hcard1
    obtain ⟨s₂, v₂, heq2, hcv2, _, _, hpair2, _⟩ :=
      castVote_upsert { input with cardValue := c2 } s₁ room participant item
        rid round hwf1 (by rw [hrooms1]; exact hroom) hclosed
        (by rw [hparts1]; exact hpart) hproom hactive hobs
        (by rw [hitems1]; exact hitem) hiroom hcur
        (by rw [hrounds1]; exact hround) hrit hstate hcard2
    exact ⟨s₁, v₁, s₂, v₂, heq1, heq2, hcv2, hpair2⟩

theorem vote_uniqueness_and_upsert_witness :
    VotesWF (runOps [Op.createRoom { name := "R", deckType := "FIBONACCI", baseUrl := none }, Op.addItem inputA] initialState) ∧
    (∃ s₁ v₁ s₂ v₂,
      castVote voteInput3 traceJoin = (s₁, Except.ok v₁) ∧
      castVote { voteInput3 with cardValue := "5" } s₁ = (s₂, Except.ok v₂) ∧
      v₂.cardValue = "5" ∧
      pairVotes s₂ round3Voting.id voteInput3.participantId = [v₂]) :=
  ⟨vote_uniqueness_and_upsert.1 [Op.createRoom { name := "R", deckType := "FIBONACCI", baseUrl := none }, Op.addItem inputA],
   vote_uniqueness_and_upsert.2 voteInput3 "5" traceJoin roomValue joinPValue
     itemAValue 3 round3Voting (by decide) (by decide) (by decide) (by decide)
     (by decide) (by decide) (by decide) (by decide) (by decide) (by decide)
     (by decide) (by decide) (by decide) (by decide) (by decide) (by decide)⟩

end PokerIt
